import Mathlib

/-!
# Operator-split chemistry coupling (`ablate::flow::processes::TChemReactions`)

A shallow embedding of `src/ablateLibrary/flow/processes/tChemReactions.cpp`.

Conventions of the embedding

* `PetscScalar`/`PetscReal`/`double` values are exact rationals (`ℚ`); rounding, infinities and
  NaN are outside the model.
* A C pointer to a block of scalars that is only indexed (`euler[i]`, `fieldSource[i]`) is a
  function `Nat → ℚ`; a store `p[i] = v` is `Function.update p i v`.
* The point vector `pointData` has exactly `numberSpecies + 1` entries (`VecCreateSeq` in the
  constructor), so it is a function on `Fin (numberSpecies + 1)`.
* A local vector indexed through `DMPlexPointLocalRef/Read` is a map from the mesh point to the
  block of that point; a global vector indexed through `DMPlexPointGlobalRef/FieldRead` is a map
  from the mesh point to `some block` for an owned point and `none` (the `NULL` pointer) for a
  ghost point.
* Calls into PETSc and TChem are parameters (`Services`).  PETSc bookkeeping calls
  (`VecGetArray`, `DMConvert`, `TSSetTime`, ...) are taken to return 0; the thermodynamic property
  calls and `TSSolve` return an error code that the code inspects, and those codes are modelled.
* The integrator context `ts` is the record of the four settings this translation unit writes
  (time, maximum time, time step, step number).  `TSSolve` is a function of that record, of the
  working pressure fixed by `TC_setThermoPres` and of the point vector, and returns whatever
  context and point vector it likes.
-/

namespace TChemReactions

/-! ## Constants and macros the translation unit takes from its headers -/

/-- Modelled from the spec: `EulerAdvection::RHO` (the enum of `eulerAdvection.hpp` is not among
the sources); the block layout is density, total energy density, momentum components. -/
def RHO : Nat := 0

/-- Modelled from the spec: `EulerAdvection::RHOE`, the total energy density component. -/
def RHOE : Nat := 1

/-- Modelled from the spec: `EulerAdvection::RHOU`, the first momentum component; the `dim`
momentum components are `RHOU + d`. -/
def RHOU : Nat := 2

/-- The PETSc macro `PetscMax(a,b)`, that is `(((a)<(b)) ? (b) : (a))`. -/
def PetscMax (a b : ℚ) : ℚ := if a < b then b else a

/-- The PETSc macro `PetscMin(a,b)`, that is `(((a)<(b)) ? (a) : (b))`. -/
def PetscMin (a b : ℚ) : ℚ := if a < b then a else b

/-- Modelled from the spec: the code with which `TCCHKERRQ` leaves the function on a non-zero
TChem code (the macro comes from a header that is not among the sources); it is PETSc's
`PETSC_ERR_LIB`.  The properties below use only that it is not 0. -/
def PETSC_ERR_LIB : Int := 76

/-! ## Data model -/

/-- The settings of the point ODE integrator context `ts` that this translation unit writes. -/
structure TS where
  time : ℚ
  maxTime : ℚ
  timeStep : ℚ
  stepNumber : Int

/-- The two blocks of a real cell read from the flow solution with
`DMPlexPointGlobalFieldRead`: the `euler` block and the `densityYi` block. -/
structure CellFields where
  euler : Nat → ℚ
  densityYi : Nat → ℚ

/-- The external collaborators of the chemistry stage, for `numberSpecies` species.  Every call
returns its error code first and the value it stores through its output pointer second. -/
structure Services (numberSpecies : Nat) where
  /-- The call `temperatureFunction(dim, density, specific energy, momentum, densityYi, &T, ctx)`. -/
  temperatureFunction : Nat → ℚ → ℚ → (Nat → ℚ) → (Nat → ℚ) → Int × ℚ
  /-- The call `TC_getMs2Wmix(Yi, numberSpecies, &mwMix)`. -/
  TC_getMs2Wmix : (Fin numberSpecies → ℚ) → Int × ℚ
  /-- The call `eos::TChem::ComputeEnthalpyOfFormation(numberSpecies, pointArray, hof)`. -/
  ComputeEnthalpyOfFormation : (Fin (numberSpecies + 1) → ℚ) → Int × ℚ
  /-- The call `TSSolve(ts, pointData)` at the working pressure fixed by `TC_setThermoPres`: the error
  code, the integrator context and the point vector it leaves behind. -/
  TSSolve : TS → ℚ → (Fin (numberSpecies + 1) → ℚ) →
    Int × TS × (Fin (numberSpecies + 1) → ℚ)
  /-- The universal gas constant `RUNIV` of `TC_params.h`. -/
  RUNIV : ℚ

/-- The mutable state the chemistry stage works on: the members of the `TChemReactions` object
that the stage reads or writes, the TChem working pressure set by `TC_setThermoPres`, and a
ghost counter of the `TSSolve` calls made. -/
structure Solver (numberSpecies : Nat) where
  dtInit : ℚ
  ts : TS
  pointData : Fin (numberSpecies + 1) → ℚ
  sourceVec : Nat → Nat → ℚ
  thermoPres : ℚ
  solveCalls : Nat

/-- What the stage reads from the flow time stepper and the flow object. -/
structure FlowData where
  /-- The value of `TSGetTime(flowTs, &time)`. -/
  time : ℚ
  /-- The value of `TSGetTimeStep(flowTs, &dt)`. -/
  dt : ℚ
  /-- The value of `DMGetDimension(flow.GetDM(), &dim)`. -/
  dim : Nat
  /-- The values of `ISGetPointRange(cellIS, &cStart, &cEnd, &cells)`. -/
  cStart : Nat
  cEnd : Nat
  cells : Option (Nat → Nat)
  /-- The pointers `DMPlexPointGlobalFieldRead` gives on the flow solution: `none` for a ghost point. -/
  flowArray : Nat → Option CellFields

/-! ## `ChemistryFlowPreStage` -/

/-- Lines 301-304: `pointArray[0] = temperature` and the loop storing the clamped mass
fractions in `pointArray[s + 1]`. -/
def loadPointArray (n : Nat) (temperature : ℚ) (cf : CellFields)
    (pointArray : Fin (n + 1) → ℚ) : Fin (n + 1) → ℚ :=
  (List.finRange n).foldl
    (fun p s => Function.update p s.succ
      (PetscMin (PetscMax 0 (cf.densityYi s.val / cf.euler RHO)) 1))
    (Function.update pointArray 0 temperature)

/-- Lines 326-333, the soft reset: `TSSetTime`, `TSSetMaxTime`, `TSSetTimeStep`,
`TSSetStepNumber`. -/
def softReset (ts : TS) (time dt dtInit : ℚ) : TS :=
  let ts := { ts with time := time }
  let ts := { ts with maxTime := time + dt }
  let ts := { ts with timeStep := dtInit }
  { ts with stepNumber := 0 }

/-- Lines 353-361: the stores of the failure branch into the cell's source block. -/
def writeZeroSource (dim n : Nat) (fieldSource : Nat → ℚ) : Nat → ℚ :=
  let f := Function.update fieldSource RHO 0
  let f := Function.update f RHOE 0
  let f := (List.range dim).foldl (fun f d => Function.update f (RHOU + d) 0) f
  (List.finRange n).foldl (fun f sp => Function.update f (RHOU + dim + sp.val) 0) f

/-- Lines 381-391: the stores of the success branch into the cell's source block. -/
def writeSource (dim n : Nat) (dt : ℚ) (cf : CellFields) (updatedInternalEnergy : ℚ)
    (pointArray : Fin (n + 1) → ℚ) (fieldSource : Nat → ℚ) : Nat → ℚ :=
  let f := Function.update fieldSource RHO 0
  let f := Function.update f RHOE ((cf.euler RHO * updatedInternalEnergy - cf.euler RHOE) / dt)
  let f := (List.range dim).foldl (fun f d => Function.update f (RHOU + d) 0) f
  (List.finRange n).foldl
    (fun f sp => Function.update f (RHOU + dim + sp.val)
      ((cf.euler RHO * PetscMin 1 (PetscMax (pointArray sp.succ) 0) - cf.densityYi sp.val) / dt))
    f

/-- The local variables of the loop body that are live at the call of `TSSolve`. -/
structure Locals where
  temperature : ℚ
  pressure : ℚ
  hof : ℚ
  enerTotal : ℚ

/-- Lines 286-333 for a real cell: temperature reconstruction, point state, working pressure,
total specific energy and the soft reset.  An error return carries the code and the state at the
point of the return. -/
def preSolve {n : Nat} (sv : Services n) (dim : Nat) (time dt : ℚ) (cf : CellFields)
    (st : Solver n) : Except (Int × Solver n) (Locals × Solver n) :=
  let t := sv.temperatureFunction dim (cf.euler RHO) (cf.euler RHOE / cf.euler RHO)
    (fun i => cf.euler (RHOU + i)) cf.densityYi
  if t.1 ≠ 0 then .error (t.1, st) else
  let temperature := t.2
  let pointArray := loadPointArray n temperature cf st.pointData
  let st := { st with pointData := pointArray }
  let m := sv.TC_getMs2Wmix (fun s => pointArray s.succ)
  if m.1 ≠ 0 then .error (PETSC_ERR_LIB, st) else
  let mwMix := m.2
  let R := 1000 * sv.RUNIV / mwMix
  let pressure := cf.euler RHO * temperature * R
  let st := { st with thermoPres := pressure }
  let h := sv.ComputeEnthalpyOfFormation pointArray
  if h.1 ≠ 0 then .error (PETSC_ERR_LIB, st) else
  let hof := h.2
  let enerTotal := hof + cf.euler RHOE / cf.euler RHO
  let st := { st with ts := softReset st.ts time dt st.dtInit }
  .ok (⟨temperature, pressure, hof, enerTotal⟩, st)

/-- Line 378: `updatedInternalEnergy = enerTotal - updatedHof`. -/
def updatedInternalEnergy (enerTotal updatedHof : ℚ) : ℚ := enerTotal - updatedHof

/-- Lines 336-393 for a real cell, after `preSolve`: the point solve and the source block.  The
diagnostic text sent to `std::cout` on failure is not part of the state. -/
def solveAndStore {n : Nat} (sv : Services n) (dim : Nat) (dt : ℚ) (cell : Nat) (cf : CellFields)
    (loc : Locals) (st : Solver n) : Int × Solver n :=
  let r := sv.TSSolve st.ts st.thermoPres st.pointData
  let st := { st with ts := r.2.1, pointData := r.2.2, solveCalls := st.solveCalls + 1 }
  if r.1 ≠ 0 then
    (0, { st with sourceVec :=
      Function.update st.sourceVec cell (writeZeroSource dim n (st.sourceVec cell)) })
  else
    let h := sv.ComputeEnthalpyOfFormation st.pointData
    if h.1 ≠ 0 then (PETSC_ERR_LIB, st) else
    let u := updatedInternalEnergy loc.enerTotal h.2
    (0, { st with sourceVec :=
      Function.update st.sourceVec cell (writeSource dim n dt cf u st.pointData (st.sourceVec cell)) })

/-- The body of the cell loop for a real cell (`if (euler)` taken), lines 286-393. -/
def processCell {n : Nat} (sv : Services n) (dim : Nat) (time dt : ℚ) (cell : Nat)
    (cf : CellFields) (st : Solver n) : Int × Solver n :=
  match preSolve sv dim time dt cf st with
  | .error e => e
  | .ok (loc, st1) => solveAndStore sv dim dt cell cf loc st1

/-- Line 274: `cells ? cells[c] : c`. -/
def cellOf (cells : Option (Nat → Nat)) (c : Nat) : Nat :=
  match cells with
  | some a => a c
  | none => c

/-- The cell loop of lines 272-395 over the loop indices still to visit; `CHKERRQ` leaves the
function with the first non-zero code. -/
def marchCells {n : Nat} (sv : Services n) (fl : FlowData) :
    List Nat → Solver n → Int × Solver n
  | [], st => (0, st)
  | c :: cs, st =>
    match fl.flowArray (cellOf fl.cells c) with
    | none => marchCells sv fl cs st
    | some cf =>
      let r := processCell sv fl.dim fl.time fl.dt (cellOf fl.cells c) cf st
      if r.1 ≠ 0 then r else marchCells sv fl cs r.2

/-- The loop indices `cStart, ..., cEnd - 1`. -/
def cellRange (fl : FlowData) : List Nat := List.range' fl.cStart (fl.cEnd - fl.cStart)

/-- The method `TChemReactions::ChemistryFlowPreStage(flowTs, flow, stagetime)`: the returned error code and
the state of the object afterwards. -/
def ChemistryFlowPreStage {n : Nat} (sv : Services n) (fl : FlowData) (stagetime : ℚ)
    (st : Solver n) : Int × Solver n :=
  if fl.time ≠ stagetime then (0, st) else marchCells sv fl (cellRange fl) st

/-! ## `AddChemistrySourceToFlow` -/

/-- Lines 474-476: `rhs[d] += source[d]` for `d < totDim`. -/
def addSource (totDim : Nat) (source rhs : Nat → ℚ) : Nat → ℚ :=
  (List.range totDim).foldl (fun rhs d => Function.update rhs d (rhs d + source d)) rhs

/-- The cell loop of lines 457-479 over the loop indices still to visit; `fArray` maps an owned
point to its residual block and a ghost point to `none`. -/
def addCells (totDim : Nat) (cells : Option (Nat → Nat)) (sourceArray : Nat → Nat → ℚ) :
    List Nat → (Nat → Option (Nat → ℚ)) → (Nat → Option (Nat → ℚ))
  | [], fArray => fArray
  | c :: cs, fArray =>
    match fArray (cellOf cells c) with
    | none => addCells totDim cells sourceArray cs fArray
    | some rhs =>
      addCells totDim cells sourceArray cs
        (Function.update fArray (cellOf cells c)
          (some (addSource totDim (sourceArray (cellOf cells c)) rhs)))

/-- The function `TChemReactions::AddChemistrySourceToFlow(dm, time, locX, fVec, ctx)`: the returned error
code, the residual vector and the solver object afterwards.  `totDim` is
`PetscDSGetTotalDimension`, and `cStart`, `cEnd`, `cells` are the point range of the cell
index set. -/
def AddChemistrySourceToFlow {n : Nat} (totDim cStart cEnd : Nat) (cells : Option (Nat → Nat))
    (fVec : Nat → Option (Nat → ℚ)) (solver : Solver n) :
    Int × (Nat → Option (Nat → ℚ)) × Solver n :=
  (0, addCells totDim cells solver.sourceVec (List.range' cStart (cEnd - cStart)) fVec, solver)

/-! ## The constructor -/

/-- The PETSc macro `PetscSqr(a)`, that is `((a)*(a))`. -/
def PetscSqr (a : Nat) : Nat := a * a

/-- What the constructor reads of the object behind the non-null pointer `eosIn`: whether
`std::dynamic_pointer_cast<eos::TChem>(eosIn)` is non-null, and `eosIn->GetSpecies().size()`. -/
structure EOS where
  isTChem : Bool
  speciesCount : Nat

/-- The exception the constructor throws itself: `std::invalid_argument` with its message. -/
inductive Exception where
  | invalid_argument (what : String)

/-- The resources the constructor creates, with the number of entries asked for. -/
inductive Resource where
  | petscOptions
  | tchemScratch (entries : Nat)
  | jacobianScratch (entries : Nat)
  | rows (entries : Nat)
  | pointData (entries : Nat)
  | jacobian (nrows ncols : Nat)
  | ts

/-- What the constructed object holds, as far as the properties below need it: the number of
species, the number of entries allocated for `rows`, the stores `rows[i] = i` made by the loop
of lines 47-49 as pairs (index, value) in the order they are made, and `dtInit`. -/
structure Constructed where
  numberSpecies : Nat
  rowsEntries : Nat
  rowsStores : List (Nat × Nat)
  dtInit : ℚ

/-- The constructor `TChemReactions::TChemReactions(eosIn, options)`: the resources created, in
order, and the exception thrown or the object.  `options` tells whether the options pointer is
non-null, `dtInitDefault` is the constant of the header, and `optionsTimeStep` the time step
that `TSSetFromOptions` sets, if any. -/
def construct (eosIn : EOS) (options : Bool) (dtInitDefault : ℚ)
    (optionsTimeStep : Option ℚ) : List Resource × Except Exception Constructed :=
  let numberSpecies := eosIn.speciesCount
  if eosIn.isTChem = false then
    ([], .error (.invalid_argument
      "ablate::flow::processes::TChemReactions::TChemReactions only accepts EOS of type eos::TChem"))
  else
  let created : List Resource := if options then [.petscOptions] else []
  let created := created ++ [.tchemScratch (numberSpecies + 1),
    .jacobianScratch (PetscSqr (numberSpecies + 1)), .rows numberSpecies]
  let rowsStores := (List.range (numberSpecies + 1)).map (fun i => (i, i))
  let created := created ++ [.pointData (numberSpecies + 1),
    .jacobian (numberSpecies + 1) (numberSpecies + 1), .ts]
  let dtInit := optionsTimeStep.getD dtInitDefault
  (created, .ok ⟨numberSpecies, numberSpecies, rowsStores, dtInit⟩)

/-! ## `Initialize` -/

/-- The entries of the vector `DMCreateLocalVector` creates: PETSc zero-fills the array of a
vector when it creates it (`VecCreate_Seq`), and `Initialize` stores nothing into it. -/
def DMCreateLocalVector : Nat → Nat → ℚ := fun _ _ => 0

/-- The method `TChemReactions::Initialize(flow)`, as far as the state goes: it creates the
source vector.  (It also clones the mesh and registers the two hooks.) -/
def Initialize {n : Nat} (st : Solver n) : Solver n :=
  { st with sourceVec := DMCreateLocalVector }

/-- A sequence of calls of `ChemistryFlowPreStage`, each with its flow data and stage time. -/
def runStages {n : Nat} (sv : Services n) (calls : List (FlowData × ℚ)) (st : Solver n) :
    Solver n :=
  calls.foldl (fun s call => (ChemistryFlowPreStage sv call.1 call.2 s).2) st

/-! ## `SinglePointChemistryJacobian` -/

/-- The PETSc call `MatZeroEntries(mat)`. -/
def MatZeroEntries (_mat : Nat → Nat → ℚ) : Nat → Nat → ℚ := fun _ _ => 0

/-- The PETSc call `MatSetValues(mat, m, idxm, n, idxn, v, INSERT_VALUES)` on a matrix whose
option `MAT_ROW_ORIENTED` is false: `v` is read column by column, `v[j * m + i]` going to the
entry `(idxm[i], idxn[j])`.  With `ignoreZero` (the matrix honours `MAT_IGNORE_ZERO_ENTRIES`) a
value 0 is not stored. -/
def MatSetValues (ignoreZero : Bool) (m : Nat) (idxm : Nat → Nat) (n : Nat) (idxn : Nat → Nat)
    (v : Nat → ℚ) (mat : Nat → Nat → ℚ) : Nat → Nat → ℚ :=
  (List.range n).foldl
    (fun mat j => (List.range m).foldl
      (fun mat i =>
        if ignoreZero = true ∧ v (j * m + i) = 0 then mat
        else Function.update mat (idxm i) (Function.update (mat (idxm i)) (idxn j) (v (j * m + i))))
      mat)
    mat

/-- The contents of `rows` after the constructor's loop of lines 47-49, `rows[i] = i` for
`i < numberSpecies + 1`, on whatever the memory held before; nothing else writes `rows`. -/
def constructedRows (numberSpecies : Nat) (memory : Nat → Nat) : Nat → Nat :=
  (List.range (numberSpecies + 1)).foldl (fun rows i => Function.update rows i i) memory

/-- The members of the object that `SinglePointChemistryJacobian` works with. -/
structure JacobianWork (numberSpecies : Nat) where
  tchemScratch : Fin (numberSpecies + 1) → ℚ
  jacobianScratch : Nat → ℚ
  rows : Nat → Nat

/-- The function `TChemReactions::SinglePointChemistryJacobian(ts, t, X, aMat, pMat, ptr)`: the
returned code, the matrix `pMat` and the members afterwards.  `TC_getJacTYN` maps the state and
the old contents of its output array to its code and the new contents; `ignoreZero` tells
whether the matrix type honours `MAT_IGNORE_ZERO_ENTRIES`.  The assembly calls change no
value. -/
def SinglePointChemistryJacobian {n : Nat}
    (TC_getJacTYN : (Fin (n + 1) → ℚ) → (Nat → ℚ) → Int × (Nat → ℚ)) (ignoreZero : Bool)
    (X : Fin (n + 1) → ℚ) (pMat : Nat → Nat → ℚ) (solver : JacobianWork n) :
    Int × (Nat → Nat → ℚ) × JacobianWork n :=
  let nEeq := n + 1
  let solver := { solver with tchemScratch := X }
  let r := TC_getJacTYN solver.tchemScratch solver.jacobianScratch
  let solver := { solver with jacobianScratch := r.2 }
  if r.1 ≠ 0 then (r.1, pMat, solver) else
  let pMat := MatZeroEntries pMat
  let pMat := MatSetValues ignoreZero nEeq solver.rows nEeq solver.rows solver.jacobianScratch pMat
  (0, pMat, solver)

end TChemReactions

/-!
# The run environment (`ablate::environment::RunEnvironment`)

A shallow embedding of the constructor of
`src/ablateLibrary/environment/runEnvironment.cpp`.  A `std::filesystem::path` is the list of
characters of its native representation on a POSIX system; what the constructor takes from the
operating system, the clock and MPI is a parameter (`Host`).
-/

namespace environment

/-- The directory separator of a POSIX path. -/
def separator : Char := '/'

/-- The member `path::is_absolute()` on POSIX: the path starts with the separator. -/
def isAbsolute (p : List Char) : Bool :=
  match p with
  | ch :: _ => ch == separator
  | [] => false

/-- The member `path::has_filename()` on POSIX: the path is not empty and does not end in the
separator. -/
def hasFilename (p : List Char) : Bool :=
  match p.getLast? with
  | some ch => ch != separator
  | none => false

/-- The operator `p / q` of `std::filesystem::path` on POSIX: `q` itself when `q` is absolute,
otherwise `p`, a separator when `p` has a filename, and `q`. -/
def pathAppend (p q : List Char) : List Char :=
  if isAbsolute q then q else if hasFilename p then p ++ separator :: q else p ++ q

/-- The operator `p += s` of `std::filesystem::path`: the text `s` is added to the native
representation, with no separator. -/
def pathConcat (p s : List Char) : List Char := p ++ s

/-- The final component of a path: the characters after its last separator. -/
def filename (p : List Char) : List Char :=
  (p.reverse.takeWhile (fun ch => ch != separator)).reverse

/-- The directory a path lies in: the characters up to and including its last separator. -/
def directoryPart (p : List Char) : List Char :=
  (p.reverse.dropWhile (fun ch => ch != separator)).reverse

/-- What the constructor reads of its `parameters` argument. -/
structure Parameters where
  /-- The value of `parameters.GetExpect<std::string>("title")`. -/
  title : List Char
  /-- The value of `parameters.Get<std::filesystem::path>("outputDirectory")`. -/
  outputDirectory : Option (List Char)
  /-- The value stored under `tagDirectory`, if any; `Get("tagDirectory", true)` is this value
  or `true`. -/
  tagDirectory : Option Bool

/-- What the constructor takes from the operating system, the clock and MPI. -/
structure Host where
  /-- The value of `std::filesystem::current_path()`. -/
  current_path : List Char
  /-- The member `path::parent_path()`. -/
  parent_path : List Char → List Char
  /-- The time of `system_clock::now()` in milliseconds. -/
  unixTimeLong : Int
  /-- The flag set by `MPI_Initialized`. -/
  mpiInitialized : Bool
  /-- The value `MPI_Allreduce` with `MPI_MIN` stores for the local value given. -/
  allreduceMin : Int → Int
  /-- The text `std::put_time` writes with the format `_%Y-%m-%dT%H-%M-%S` for the local time of
  the instant given in milliseconds. -/
  putTime : Int → List Char
  /-- The rank stored by `MPI_Comm_rank`. -/
  mpiRank : Int
  /-- Whether the operating system lets the directories of a non-empty path be created. -/
  canCreate : List Char → Bool

/-- The members of a `RunEnvironment`. -/
structure RunEnvironment where
  outputDirectory : List Char
  title : List Char

/-- The exception that leaves the constructor: the `std::filesystem::filesystem_error` of
`create_directories`, with the path it was called on. -/
inductive ConstructionError where
  | filesystem_error (path : List Char)

/-- Whether `std::filesystem::create_directories(p)` returns: it throws for the empty path and
when the operating system refuses. -/
def createDirectoriesReturns (host : Host) (p : List Char) : Bool :=
  !p.isEmpty && host.canCreate p

/-- Line 11: the specified output directory, or the directory of the input file (the current
directory for an empty input path) `/` the title. -/
def untaggedDirectory (host : Host) (parameters : Parameters) (inputPath : List Char) :
    List Char :=
  let title := parameters.title
  let specifiedOutputDirectory := parameters.outputDirectory
  specifiedOutputDirectory.getD
    (pathAppend (if inputPath.isEmpty then host.current_path else host.parent_path inputPath)
      title)

/-- Lines 16-33: the time tag, formatted from the local clock or, when MPI is initialised, from
the minimum over all ranks. -/
def timeTag (host : Host) : List Char :=
  let unixTimeLong := host.unixTimeLong
  let globalUnixTimeLong :=
    if host.mpiInitialized then host.allreduceMin unixTimeLong else unixTimeLong
  host.putTime globalUnixTimeLong

/-- Lines 10-37: the member `outputDirectory` before the directory is created. -/
def taggedDirectory (host : Host) (parameters : Parameters) (inputPath : List Char) :
    List Char :=
  let outputDirectory := untaggedDirectory host parameters inputPath
  if parameters.tagDirectory.getD true then pathConcat outputDirectory (timeTag host)
  else outputDirectory

/-- The constructor `RunEnvironment::RunEnvironment(parameters, inputPath)`: the exception of
`create_directories`, or the object and the directory this rank has created, if it is the rank
that creates it. -/
def newRunEnvironment (host : Host) (parameters : Parameters) (inputPath : List Char) :
    Except ConstructionError (RunEnvironment × Option (List Char)) :=
  let title := parameters.title
  let outputDirectory := taggedDirectory host parameters inputPath
  let mpiRank := if host.mpiInitialized then host.mpiRank else 0
  if mpiRank = 0 then
    if createDirectoriesReturns host outputDirectory then
      .ok (⟨outputDirectory, title⟩, some outputDirectory)
    else .error (.filesystem_error outputDirectory)
  else .ok (⟨outputDirectory, title⟩, none)

/-- A host for a concrete construction: the parent of every path is `in`, the current
directory is `/work`, MPI is not initialised, the time tag is that of 1 June 2021, noon, and
the operating system refuses no directory. -/
def exampleHost : Host where
  current_path := "/work".toList
  parent_path := fun _ => "in".toList
  unixTimeLong := 1622548800000
  mpiInitialized := false
  allreduceMin := fun t => t
  putTime := fun _ => "_2021-06-01T12-00-00".toList
  mpiRank := 0
  canCreate := fun _ => true

end environment

namespace TChemReactions

/-! ## Predicates used to state the properties -/

/-- The thermodynamic property calls made while the loop body processes the real cell `cf` from
the state `st` all return 0: the temperature, mixture molar mass and enthalpy calls before the
solve and, when the solve returns 0, the enthalpy call after it.  Nothing is asked of the code
returned by `TSSolve`. -/
def PropertyCallsSucceed {n : Nat} (sv : Services n) (dim : Nat) (time dt : ℚ) (cf : CellFields)
    (st : Solver n) : Prop :=
  match preSolve sv dim time dt cf st with
  | .error _ => False
  | .ok (_, st1) =>
    (sv.TSSolve st1.ts st1.thermoPres st1.pointData).1 = 0 →
      (sv.ComputeEnthalpyOfFormation (sv.TSSolve st1.ts st1.thermoPres st1.pointData).2.2).1 = 0

/-- The loop indices of the cell range whose point is a real cell. -/
def realCellCount (fl : FlowData) (l : List Nat) : Nat :=
  l.countP (fun c => (fl.flowArray (cellOf fl.cells c)).isSome)

/-! ## A concrete run used to instantiate the properties

One species, one space dimension, a range of three points: point 0 is a real cell whose solve
succeeds, point 1 a real cell whose solve fails, point 2 a ghost point. -/

/-- Services of the concrete run: the temperature is the specific energy, the mixture molar
mass is 1, the formation enthalpy is ten times the mass fraction, and the integrator fails at a
temperature of 1000 or more and otherwise halves every entry of the point state. -/
def exampleServices : Services 1 where
  temperatureFunction := fun _ _ e _ _ => (0, e)
  TC_getMs2Wmix := fun _ => (0, 1)
  ComputeEnthalpyOfFormation := fun x => (0, 10 * x 1)
  TSSolve := fun ts _ x =>
    if x 0 < 1000 then (0, ⟨ts.maxTime, ts.maxTime, ts.timeStep, 1⟩, fun i => x i / 2)
    else (1, ts, x)
  RUNIV := 1

/-- Point 0: density 1, total energy density 300, no momentum, species density 1/2. -/
def exampleCell0 : CellFields :=
  ⟨fun i => if i = 0 then 1 else if i = 1 then 300 else 0, fun _ => 1 / 2⟩

/-- Point 1: density 1, total energy density 2000, no momentum, species density 1/2. -/
def exampleCell1 : CellFields :=
  ⟨fun i => if i = 0 then 1 else if i = 1 then 2000 else 0, fun _ => 1 / 2⟩

/-- Flow data of the concrete run: time 0, step 1, points 0, 1, 2. -/
def exampleFlow : FlowData where
  time := 0
  dt := 1
  dim := 1
  cStart := 0
  cEnd := 3
  cells := none
  flowArray := fun c =>
    if c = 0 then some exampleCell0 else if c = 1 then some exampleCell1 else none

/-- Solver state of the concrete run: every entry of the source field holds the stale value 7. -/
def exampleSolver : Solver 1 where
  dtInit := 1 / 10
  ts := ⟨0, 0, 0, 0⟩
  pointData := fun _ => 0
  sourceVec := fun _ _ => 7
  thermoPres := 0
  solveCalls := 0

/-- Locals of point 0 at its solve: temperature 300, pressure 300000, hof 5, total 305. -/
def exampleLocals0 : Locals := ⟨300, 300000, 5, 305⟩

/-- State at the solve of point 0. -/
def exampleInput0 : Solver 1 :=
  { exampleSolver with
    pointData := loadPointArray 1 300 exampleCell0 exampleSolver.pointData
    thermoPres := 300000
    ts := ⟨0, 1, 1 / 10, 0⟩ }

/-- Locals of point 1 at its solve: temperature 2000, pressure 2000000, hof 5, total 2005. -/
def exampleLocals1 : Locals := ⟨2000, 2000000, 5, 2005⟩

/-- State at the solve of point 1. -/
def exampleInput1 : Solver 1 :=
  { exampleSolver with
    pointData := loadPointArray 1 2000 exampleCell1 exampleSolver.pointData
    thermoPres := 2000000
    ts := ⟨0, 1, 1 / 10, 0⟩ }

/-- Residual vector of the concrete run: points 0 and 1 hold 1 in every component, point 2 is a
ghost point. -/
def exampleResidual : Nat → Option (Nat → ℚ) :=
  fun c => if c = 2 then none else some (fun _ => 1)

/-- Services of a second concrete run: as `exampleServices`, with an integrator that succeeds
and leaves the point state as it is. -/
def inertServices : Services 1 where
  temperatureFunction := fun _ _ e _ _ => (0, e)
  TC_getMs2Wmix := fun _ => (0, 1)
  ComputeEnthalpyOfFormation := fun x => (0, 10 * x 1)
  TSSolve := fun ts _ x => (0, ts, x)
  RUNIV := 1

/-- A Jacobian routine of TChem that succeeds: entry `k` of its output is the temperature plus
`k`. -/
def exampleJacTYN : (Fin 2 → ℚ) → (Nat → ℚ) → Int × (Nat → ℚ) :=
  fun x _ => (0, fun k => x 0 + k)

/-- A Jacobian routine of TChem that fails with code 1, having filled its output with 5. -/
def failingJacTYN : (Fin 2 → ℚ) → (Nat → ℚ) → Int × (Nat → ℚ) :=
  fun _ _ => (1, fun _ => 5)

/-- Members of the object for one species, with `rows` as the constructor leaves it. -/
def exampleWork : JacobianWork 1 := ⟨fun _ => 0, fun _ => 0, constructedRows 1 (fun _ => 0)⟩

/-- A real cell whose species density exceeds its density: density 1, total energy density
300, no momentum, species density 2. -/
def exampleCell2 : CellFields :=
  ⟨fun i => if i = 0 then 1 else if i = 1 then 300 else 0, fun _ => 2⟩

/-- Flow data of a third concrete run: time 0, step 1, the single point 0 holding
`exampleCell2`. -/
def clampFlow : FlowData where
  time := 0
  dt := 1
  dim := 1
  cStart := 0
  cEnd := 1
  cells := none
  flowArray := fun c => if c = 0 then some exampleCell2 else none

/-- Locals of `exampleCell2` at its solve: temperature 300, pressure 300000, hof 10, total
310. -/
def exampleLocals2 : Locals := ⟨300, 300000, 10, 310⟩

/-- State at the solve of `exampleCell2`. -/
def exampleInput2 : Solver 1 :=
  { exampleSolver with
    pointData := loadPointArray 1 300 exampleCell2 exampleSolver.pointData
    thermoPres := 300000
    ts := ⟨0, 1, 1 / 10, 0⟩ }

/-! ## Stores made by a loop -/

/-- A loop of stores leaves an index it never stores to unchanged. -/
theorem foldl_update_of_forall_ne {α κ β : Type} [DecidableEq κ] (key : α → κ) (val : α → β)
    (k : κ) (l : List α) (f : κ → β) (h : ∀ a ∈ l, key a ≠ k) :
    (l.foldl (fun f a => Function.update f (key a) (val a)) f) k = f k := by
  induction l generalizing f with
  | nil => rfl
  | cons b bs ih =>
    rw [List.foldl_cons, ih _ (fun a ha => h a (List.mem_cons_of_mem b ha))]
    exact Function.update_noteq (Ne.symm (h b (List.mem_cons_self b bs))) _ _

/-- A loop of stores leaves the value `v` at an index it stores to, when every store to that
index stores `v`. -/
theorem foldl_update_of_exists {α κ β : Type} [DecidableEq κ] (key : α → κ) (val : α → β)
    (k : κ) (v : β) (l : List α) (f : κ → β) (hex : ∃ a ∈ l, key a = k)
    (hval : ∀ b ∈ l, key b = k → val b = v) :
    (l.foldl (fun f a => Function.update f (key a) (val a)) f) k = v := by
  induction l generalizing f with
  | nil => obtain ⟨a, ha, _⟩ := hex; cases ha
  | cons b bs ih =>
    rw [List.foldl_cons]
    by_cases hbs : ∃ a ∈ bs, key a = k
    · exact ih _ hbs (fun c hc => hval c (List.mem_cons_of_mem b hc))
    · have hne : ∀ a ∈ bs, key a ≠ k := fun a ha hk => hbs ⟨a, ha, hk⟩
      rw [foldl_update_of_forall_ne key val k bs _ hne]
      obtain ⟨a, ha, hk⟩ := hex
      have hab : key b = k := by
        rcases List.mem_cons.mp ha with rfl | h'
        · exact hk
        · exact absurd hk (hne a h')
      have hv : val b = v := hval b (List.mem_cons_self b bs) hab
      rw [← hab, Function.update_same, hv]

/-! ## The point state written before the solve -/

theorem loadPointArray_zero (n : Nat) (temperature : ℚ) (cf : CellFields)
    (pointArray : Fin (n + 1) → ℚ) :
    loadPointArray n temperature cf pointArray 0 = temperature := by
  unfold loadPointArray
  rw [foldl_update_of_forall_ne (fun s : Fin n => s.succ) _ 0 _ _
    (fun a _ => Fin.succ_ne_zero a)]
  exact Function.update_same _ _ _

theorem loadPointArray_succ (n : Nat) (temperature : ℚ) (cf : CellFields)
    (pointArray : Fin (n + 1) → ℚ) (s : Fin n) :
    loadPointArray n temperature cf pointArray s.succ
      = PetscMin (PetscMax 0 (cf.densityYi s.val / cf.euler RHO)) 1 := by
  unfold loadPointArray
  refine foldl_update_of_exists (fun s : Fin n => s.succ) _ s.succ _ _ _
    ⟨s, List.mem_finRange s, rfl⟩ ?_
  intro b _ hb
  rw [Fin.succ_injective n hb]

/-- Every entry of the point vector is overwritten: the loaded point state does not depend on
what the vector held before. -/
theorem loadPointArray_indep (n : Nat) (temperature : ℚ) (cf : CellFields)
    (p q : Fin (n + 1) → ℚ) :
    loadPointArray n temperature cf p = loadPointArray n temperature cf q := by
  funext i
  refine Fin.cases ?_ (fun s => ?_) i
  · rw [loadPointArray_zero, loadPointArray_zero]
  · rw [loadPointArray_succ, loadPointArray_succ]

/-! ## The source block written after the solve -/

theorem writeZeroSource_lt (dim n : Nat) (fieldSource : Nat → ℚ) (k : Nat)
    (hk : k < RHOU + dim + n) : writeZeroSource dim n fieldSource k = 0 := by
  unfold writeZeroSource
  simp only [RHO, RHOE, RHOU] at *
  by_cases h3 : 2 + dim ≤ k
  · refine foldl_update_of_exists (fun sp : Fin n => 2 + dim + sp.val) _ k 0 _ _
      ⟨⟨k - (2 + dim), by omega⟩, List.mem_finRange _, by simp only []; omega⟩ (fun _ _ _ => rfl)
  · rw [foldl_update_of_forall_ne (fun sp : Fin n => 2 + dim + sp.val) _ k _ _
      (fun a _ => by simp only []; omega)]
    by_cases h2 : 2 ≤ k
    · refine foldl_update_of_exists (fun d : Nat => 2 + d) _ k 0 _ _
        ⟨k - 2, List.mem_range.mpr (by omega), by simp only []; omega⟩ (fun _ _ _ => rfl)
    · rw [foldl_update_of_forall_ne (fun d : Nat => 2 + d) _ k _ _
        (fun a _ => by simp only []; omega)]
      by_cases h1 : k = 1
      · subst h1; exact Function.update_same _ _ _
      · have h0 : k = 0 := by omega
        subst h0
        rw [Function.update_noteq (by decide), Function.update_same]

theorem writeZeroSource_ge (dim n : Nat) (fieldSource : Nat → ℚ) (k : Nat)
    (hk : RHOU + dim + n ≤ k) : writeZeroSource dim n fieldSource k = fieldSource k := by
  unfold writeZeroSource
  simp only [RHO, RHOE, RHOU] at *
  rw [foldl_update_of_forall_ne (fun sp : Fin n => 2 + dim + sp.val) _ k _ _
      (fun a _ => by have := a.isLt; simp only []; omega),
    foldl_update_of_forall_ne (fun d : Nat => 2 + d) _ k _ _
      (fun a ha => by have := List.mem_range.mp ha; simp only []; omega),
    Function.update_noteq (by omega), Function.update_noteq (by omega)]

theorem writeSource_RHO (dim n : Nat) (dt : ℚ) (cf : CellFields) (u : ℚ)
    (pointArray : Fin (n + 1) → ℚ) (fieldSource : Nat → ℚ) :
    writeSource dim n dt cf u pointArray fieldSource RHO = 0 := by
  unfold writeSource
  simp only [RHO, RHOE, RHOU]
  rw [foldl_update_of_forall_ne (fun sp : Fin n => 2 + dim + sp.val) _ 0 _ _
      (fun a _ => by simp only []; omega),
    foldl_update_of_forall_ne (fun d : Nat => 2 + d) _ 0 _ _
      (fun a _ => by simp only []; omega),
    Function.update_noteq (by decide), Function.update_same]

theorem writeSource_RHOE (dim n : Nat) (dt : ℚ) (cf : CellFields) (u : ℚ)
    (pointArray : Fin (n + 1) → ℚ) (fieldSource : Nat → ℚ) :
    writeSource dim n dt cf u pointArray fieldSource RHOE
      = (cf.euler RHO * u - cf.euler RHOE) / dt := by
  unfold writeSource
  simp only [RHO, RHOE, RHOU]
  rw [foldl_update_of_forall_ne (fun sp : Fin n => 2 + dim + sp.val) _ 1 _ _
      (fun a _ => by simp only []; omega),
    foldl_update_of_forall_ne (fun d : Nat => 2 + d) _ 1 _ _
      (fun a _ => by simp only []; omega),
    Function.update_same]

theorem writeSource_RHOU (dim n : Nat) (dt : ℚ) (cf : CellFields) (u : ℚ)
    (pointArray : Fin (n + 1) → ℚ) (fieldSource : Nat → ℚ) (d : Nat) (hd : d < dim) :
    writeSource dim n dt cf u pointArray fieldSource (RHOU + d) = 0 := by
  unfold writeSource
  simp only [RHO, RHOE, RHOU]
  rw [foldl_update_of_forall_ne (fun sp : Fin n => 2 + dim + sp.val) _ (2 + d) _ _
      (fun a _ => by simp only []; omega)]
  exact foldl_update_of_exists (fun d : Nat => 2 + d) _ (2 + d) 0 _ _
    ⟨d, List.mem_range.mpr hd, rfl⟩ (fun _ _ _ => rfl)

theorem writeSource_species (dim n : Nat) (dt : ℚ) (cf : CellFields) (u : ℚ)
    (pointArray : Fin (n + 1) → ℚ) (fieldSource : Nat → ℚ) (sp : Fin n) :
    writeSource dim n dt cf u pointArray fieldSource (RHOU + dim + sp.val)
      = (cf.euler RHO * PetscMin 1 (PetscMax (pointArray sp.succ) 0) - cf.densityYi sp.val)
          / dt := by
  unfold writeSource
  simp only [RHO, RHOE, RHOU]
  refine foldl_update_of_exists (fun sp : Fin n => 2 + dim + sp.val) _ (2 + dim + sp.val) _ _ _
    ⟨sp, List.mem_finRange sp, rfl⟩ ?_
  intro b _ hb
  have : b = sp := Fin.ext (by simp only [] at hb; omega)
  rw [this]

theorem writeSource_ge (dim n : Nat) (dt : ℚ) (cf : CellFields) (u : ℚ)
    (pointArray : Fin (n + 1) → ℚ) (fieldSource : Nat → ℚ) (k : Nat)
    (hk : RHOU + dim + n ≤ k) :
    writeSource dim n dt cf u pointArray fieldSource k = fieldSource k := by
  unfold writeSource
  simp only [RHO, RHOE, RHOU] at *
  rw [foldl_update_of_forall_ne (fun sp : Fin n => 2 + dim + sp.val) _ k _ _
      (fun a _ => by have := a.isLt; simp only []; omega),
    foldl_update_of_forall_ne (fun d : Nat => 2 + d) _ k _ _
      (fun a ha => by have := List.mem_range.mp ha; simp only []; omega),
    Function.update_noteq (by omega), Function.update_noteq (by omega)]

/-! ## The loop body up to the solve -/

theorem PETSC_ERR_LIB_ne_zero : PETSC_ERR_LIB ≠ 0 := by decide

theorem softReset_eq (ts : TS) (time dt dtInit : ℚ) :
    softReset ts time dt dtInit = ⟨time, time + dt, dtInit, 0⟩ := rfl

/-- An error return before the solve has a non-zero code and has touched neither the source
field, nor `dtInit`, nor the count of solves. -/
theorem preSolve_error {n : Nat} (sv : Services n) (dim : Nat) (time dt : ℚ) (cf : CellFields)
    (st : Solver n) (e : Int × Solver n) (h : preSolve sv dim time dt cf st = .error e) :
    e.1 ≠ 0 ∧ e.2.sourceVec = st.sourceVec ∧ e.2.dtInit = st.dtInit
      ∧ e.2.solveCalls = st.solveCalls := by
  unfold preSolve at h
  simp only [] at h
  split_ifs at h with h1 h2 h3
  · cases h; exact ⟨h1, rfl, rfl, rfl⟩
  · cases h; exact ⟨PETSC_ERR_LIB_ne_zero, rfl, rfl, rfl⟩
  · cases h; exact ⟨PETSC_ERR_LIB_ne_zero, rfl, rfl, rfl⟩

/-- What the part before the solve leaves behind when it succeeds. -/
theorem preSolve_ok {n : Nat} (sv : Services n) (dim : Nat) (time dt : ℚ) (cf : CellFields)
    (st : Solver n) (loc : Locals) (st1 : Solver n)
    (h : preSolve sv dim time dt cf st = .ok (loc, st1)) :
    st1.sourceVec = st.sourceVec ∧ st1.dtInit = st.dtInit ∧ st1.solveCalls = st.solveCalls
      ∧ st1.ts = ⟨time, time + dt, st.dtInit, 0⟩
      ∧ st1.pointData = loadPointArray n loc.temperature cf st.pointData
      ∧ loc.temperature = (sv.temperatureFunction dim (cf.euler RHO)
          (cf.euler RHOE / cf.euler RHO) (fun i => cf.euler (RHOU + i)) cf.densityYi).2
      ∧ loc.pressure = cf.euler RHO * loc.temperature
          * (1000 * sv.RUNIV / (sv.TC_getMs2Wmix (fun s => st1.pointData s.succ)).2)
      ∧ st1.thermoPres = loc.pressure
      ∧ loc.hof = (sv.ComputeEnthalpyOfFormation st1.pointData).2
      ∧ loc.enerTotal = loc.hof + cf.euler RHOE / cf.euler RHO := by
  unfold preSolve at h
  simp only [] at h
  split_ifs at h with h1 h2 h3
  cases h
  exact ⟨rfl, rfl, rfl, rfl, rfl, rfl, rfl, rfl, rfl, rfl⟩

/-- The part before the solve reads nothing of the state but `dtInit`: from two states with the
same `dtInit` it returns the same error code, or the same locals and the same integrator
context, point vector and working pressure. -/
theorem preSolve_congr {n : Nat} (sv : Services n) (dim : Nat) (time dt : ℚ) (cf : CellFields)
    (st st' : Solver n) (hdt : st.dtInit = st'.dtInit) :
    (∀ loc st1, preSolve sv dim time dt cf st = .ok (loc, st1) →
        ∃ st1', preSolve sv dim time dt cf st' = .ok (loc, st1') ∧ st1'.ts = st1.ts
          ∧ st1'.pointData = st1.pointData ∧ st1'.thermoPres = st1.thermoPres)
    ∧ (∀ e, preSolve sv dim time dt cf st = .error e →
        ∃ e', preSolve sv dim time dt cf st' = .error e' ∧ e'.1 = e.1) := by
  unfold preSolve
  simp only []
  rw [loadPointArray_indep n _ cf st.pointData st'.pointData, hdt]
  constructor
  · intro loc st1 h
    split_ifs at h ⊢ with h1 h2 h3
    cases h
    exact ⟨_, rfl, rfl, rfl, rfl⟩
  · intro e h
    split_ifs at h ⊢ with h1 h2 h3
    · cases h; exact ⟨_, rfl, rfl⟩
    · cases h; exact ⟨_, rfl, rfl⟩
    · cases h; exact ⟨_, rfl, rfl⟩

/-! ## The solve and the stores of the loop body -/

theorem solveAndStore_frame {n : Nat} (sv : Services n) (dim : Nat) (dt : ℚ) (cell : Nat)
    (cf : CellFields) (loc : Locals) (st : Solver n) :
    (solveAndStore sv dim dt cell cf loc st).2.dtInit = st.dtInit
      ∧ (solveAndStore sv dim dt cell cf loc st).2.solveCalls = st.solveCalls + 1
      ∧ ∀ c, c ≠ cell → (solveAndStore sv dim dt cell cf loc st).2.sourceVec c = st.sourceVec c := by
  unfold solveAndStore
  simp only []
  split_ifs with h1 h2
  · exact ⟨rfl, rfl, fun c hc => Function.update_noteq hc _ _⟩
  · exact ⟨rfl, rfl, fun c _ => rfl⟩
  · exact ⟨rfl, rfl, fun c hc => Function.update_noteq hc _ _⟩

/-- The failure branch: the code returned to the loop is 0 and the block is written by
`writeZeroSource`. -/
theorem solveAndStore_of_fail {n : Nat} (sv : Services n) (dim : Nat) (dt : ℚ) (cell : Nat)
    (cf : CellFields) (loc : Locals) (st : Solver n)
    (hfail : (sv.TSSolve st.ts st.thermoPres st.pointData).1 ≠ 0) :
    (solveAndStore sv dim dt cell cf loc st).1 = 0
      ∧ (solveAndStore sv dim dt cell cf loc st).2.sourceVec cell
          = writeZeroSource dim n (st.sourceVec cell) := by
  unfold solveAndStore
  simp only []
  rw [if_pos hfail]
  exact ⟨rfl, Function.update_same _ _ _⟩

/-- The success branch with a successful enthalpy call: the code is 0 and the block is written
by `writeSource`. -/
theorem solveAndStore_of_success {n : Nat} (sv : Services n) (dim : Nat) (dt : ℚ) (cell : Nat)
    (cf : CellFields) (loc : Locals) (st : Solver n)
    (hok : (sv.TSSolve st.ts st.thermoPres st.pointData).1 = 0)
    (hhof : (sv.ComputeEnthalpyOfFormation
      (sv.TSSolve st.ts st.thermoPres st.pointData).2.2).1 = 0) :
    (solveAndStore sv dim dt cell cf loc st).1 = 0
      ∧ (solveAndStore sv dim dt cell cf loc st).2.sourceVec cell
          = writeSource dim n dt cf
              (updatedInternalEnergy loc.enerTotal
                (sv.ComputeEnthalpyOfFormation
                  (sv.TSSolve st.ts st.thermoPres st.pointData).2.2).2)
              (sv.TSSolve st.ts st.thermoPres st.pointData).2.2 (st.sourceVec cell) := by
  unfold solveAndStore
  simp only []
  rw [if_neg (not_not.mpr hok), if_neg (not_not.mpr hhof)]
  exact ⟨rfl, Function.update_same _ _ _⟩

/-- The only non-zero code of the second half of the body is the one of a failed enthalpy call
after a successful solve. -/
theorem solveAndStore_code {n : Nat} (sv : Services n) (dim : Nat) (dt : ℚ) (cell : Nat)
    (cf : CellFields) (loc : Locals) (st : Solver n) :
    (solveAndStore sv dim dt cell cf loc st).1 = 0 ↔
      ((sv.TSSolve st.ts st.thermoPres st.pointData).1 = 0 →
        (sv.ComputeEnthalpyOfFormation
          (sv.TSSolve st.ts st.thermoPres st.pointData).2.2).1 = 0) := by
  unfold solveAndStore
  simp only []
  split_ifs with h1 h2
  · exact ⟨fun _ h => absurd h h1, fun _ => rfl⟩
  · exact ⟨fun h => absurd h PETSC_ERR_LIB_ne_zero, fun h => absurd (h (not_not.mp h1)) h2⟩
  · exact ⟨fun _ _ => not_not.mp h2, fun _ => rfl⟩

/-- Below `RHOU + dim + n` the success branch overwrites every component: the block it leaves
does not depend on what the block held before. -/
theorem writeSource_indep (dim n : Nat) (dt : ℚ) (cf : CellFields) (u : ℚ)
    (pointArray : Fin (n + 1) → ℚ) (f g : Nat → ℚ) (k : Nat) (hk : k < RHOU + dim + n) :
    writeSource dim n dt cf u pointArray f k = writeSource dim n dt cf u pointArray g k := by
  by_cases h3 : RHOU + dim ≤ k
  · have hsp : k - (RHOU + dim) < n := by omega
    have hk' : k = RHOU + dim + (⟨k - (RHOU + dim), hsp⟩ : Fin n).val := by
      simp only []; omega
    rw [hk', writeSource_species, writeSource_species]
  · by_cases h2 : RHOU ≤ k
    · have hk' : k = RHOU + (k - RHOU) := by omega
      rw [hk', writeSource_RHOU _ _ _ _ _ _ _ _ (by omega),
        writeSource_RHOU _ _ _ _ _ _ _ _ (by omega)]
    · have hR : RHOU = 2 := rfl
      by_cases h1 : k = RHOE
      · rw [h1, writeSource_RHOE, writeSource_RHOE]
      · have h0 : k = RHO := by
          have : RHOE = 1 := rfl
          have : RHO = 0 := rfl
          omega
        rw [h0, writeSource_RHO, writeSource_RHO]

/-! ## The loop body for a real cell -/

theorem processCell_frame {n : Nat} (sv : Services n) (dim : Nat) (time dt : ℚ) (cell : Nat)
    (cf : CellFields) (st : Solver n) :
    (processCell sv dim time dt cell cf st).2.dtInit = st.dtInit
      ∧ ∀ c, c ≠ cell → (processCell sv dim time dt cell cf st).2.sourceVec c = st.sourceVec c := by
  unfold processCell
  cases h : preSolve sv dim time dt cf st with
  | error e =>
    obtain ⟨_, hs, hd, _⟩ := preSolve_error sv dim time dt cf st e h
    exact ⟨hd, fun c _ => by simp only [hs]⟩
  | ok r =>
    obtain ⟨loc, st1⟩ := r
    obtain ⟨hs, hd, _⟩ := preSolve_ok sv dim time dt cf st loc st1 h
    obtain ⟨hd', _, hf⟩ := solveAndStore_frame sv dim dt cell cf loc st1
    simp only []
    exact ⟨hd'.trans hd, fun c hc => (hf c hc).trans (by rw [hs])⟩

/-- The code the body returns depends on the state through `dtInit` only (and not on the cell
number). -/
theorem processCell_code_congr {n : Nat} (sv : Services n) (dim : Nat) (time dt : ℚ)
    (cell cell' : Nat) (cf : CellFields) (st st' : Solver n) (hdt : st.dtInit = st'.dtInit) :
    (processCell sv dim time dt cell cf st).1 = (processCell sv dim time dt cell' cf st').1 := by
  obtain ⟨hok, herr⟩ := preSolve_congr sv dim time dt cf st st' hdt
  unfold processCell
  cases h : preSolve sv dim time dt cf st with
  | error e =>
    obtain ⟨e', he', hc⟩ := herr e h
    rw [he']
    exact hc.symm
  | ok r =>
    obtain ⟨loc, st1⟩ := r
    obtain ⟨st1', he', hts, hpd, hp⟩ := hok loc st1 h
    rw [he']
    simp only []
    by_cases hz : (solveAndStore sv dim dt cell cf loc st1).1 = 0
    · rw [hz]
      symm
      rw [solveAndStore_code, hts, hpd, hp]
      exact (solveAndStore_code sv dim dt cell cf loc st1).mp hz
    · have hfail : (sv.TSSolve st1.ts st1.thermoPres st1.pointData).1 = 0 := by
        by_contra hne
        exact hz (solveAndStore_of_fail sv dim dt cell cf loc st1 hne).1
      have hhof : ¬ (sv.ComputeEnthalpyOfFormation
          (sv.TSSolve st1.ts st1.thermoPres st1.pointData).2.2).1 = 0 :=
        fun hh => hz ((solveAndStore_code sv dim dt cell cf loc st1).mpr (fun _ => hh))
      unfold solveAndStore
      simp only []
      rw [hts, hpd, hp, if_neg (not_not.mpr hfail), if_pos hhof, if_neg (not_not.mpr hfail),
        if_pos hhof]

/-- When the body returns 0, the block it leaves for its cell is the same from every state with
the same `dtInit`: all `RHOU + dim + n` components are overwritten with values computed from
the inputs of the cell. -/
theorem processCell_block_congr {n : Nat} (sv : Services n) (dim : Nat) (time dt : ℚ)
    (cell : Nat) (cf : CellFields) (st st' : Solver n) (hdt : st.dtInit = st'.dtInit)
    (h0 : (processCell sv dim time dt cell cf st).1 = 0) (k : Nat) (hk : k < RHOU + dim + n) :
    (processCell sv dim time dt cell cf st).2.sourceVec cell k
      = (processCell sv dim time dt cell cf st').2.sourceVec cell k := by
  obtain ⟨hok, _⟩ := preSolve_congr sv dim time dt cf st st' hdt
  unfold processCell at h0 ⊢
  cases h : preSolve sv dim time dt cf st with
  | error e =>
    rw [h] at h0
    exact absurd h0 (preSolve_error sv dim time dt cf st e h).1
  | ok r =>
    obtain ⟨loc, st1⟩ := r
    obtain ⟨st1', he', hts, hpd, hp⟩ := hok loc st1 h
    rw [h] at h0
    rw [he']
    simp only [] at h0 ⊢
    by_cases hfail : (sv.TSSolve st1.ts st1.thermoPres st1.pointData).1 = 0
    · have hhof := (solveAndStore_code sv dim dt cell cf loc st1).mp h0 hfail
      rw [(solveAndStore_of_success sv dim dt cell cf loc st1 hfail hhof).2,
        (solveAndStore_of_success sv dim dt cell cf loc st1' (by rw [hts, hpd, hp]; exact hfail)
          (by rw [hts, hpd, hp]; exact hhof)).2, hts, hpd, hp]
      exact writeSource_indep _ _ _ _ _ _ _ _ k hk
    · rw [(solveAndStore_of_fail sv dim dt cell cf loc st1 hfail).2,
        (solveAndStore_of_fail sv dim dt cell cf loc st1' (by rw [hts, hpd, hp]; exact hfail)).2,
        writeZeroSource_lt _ _ _ k hk, writeZeroSource_lt _ _ _ k hk]

/-! ## The cell loop -/

theorem marchCells_dtInit {n : Nat} (sv : Services n) (fl : FlowData) (l : List Nat)
    (st : Solver n) : (marchCells sv fl l st).2.dtInit = st.dtInit := by
  induction l generalizing st with
  | nil => rfl
  | cons b bs ih =>
    unfold marchCells
    cases hb : fl.flowArray (cellOf fl.cells b) with
    | none => exact ih st
    | some cfb =>
      simp only []
      split_ifs with hr
      · exact (processCell_frame sv fl.dim fl.time fl.dt _ cfb st).1
      · exact (ih _).trans (processCell_frame sv fl.dim fl.time fl.dt _ cfb st).1

/-- The loop leaves the block of a point it does not visit unchanged. -/
theorem marchCells_frame {n : Nat} (sv : Services n) (fl : FlowData) (l : List Nat)
    (st : Solver n) (x : Nat) (hx : ∀ c ∈ l, cellOf fl.cells c ≠ x) :
    (marchCells sv fl l st).2.sourceVec x = st.sourceVec x := by
  induction l generalizing st with
  | nil => rfl
  | cons b bs ih =>
    have hbs : ∀ c ∈ bs, cellOf fl.cells c ≠ x := fun c hc => hx c (List.mem_cons_of_mem b hc)
    have hb' : x ≠ cellOf fl.cells b := fun h => hx b (List.mem_cons_self b bs) h.symm
    unfold marchCells
    cases hb : fl.flowArray (cellOf fl.cells b) with
    | none => exact ih st hbs
    | some cfb =>
      simp only []
      split_ifs with hr
      · exact (processCell_frame sv fl.dim fl.time fl.dt _ cfb st).2 x hb'
      · exact (ih _ hbs).trans ((processCell_frame sv fl.dim fl.time fl.dt _ cfb st).2 x hb')

/-- When the loop returns 0, the block it leaves for a visited real cell is the block the loop
body computes for that cell alone, started from any state with the same `dtInit`. -/
theorem marchCells_block {n : Nat} (sv : Services n) (fl : FlowData) (l : List Nat)
    (st : Solver n) (h0 : (marchCells sv fl l st).1 = 0) (x : Nat)
    (hx : ∃ c ∈ l, cellOf fl.cells c = x) (cf : CellFields) (hcf : fl.flowArray x = some cf)
    (st0 : Solver n) (hdt : st0.dtInit = st.dtInit) :
    (processCell sv fl.dim fl.time fl.dt x cf st0).1 = 0
      ∧ ∀ k, k < RHOU + fl.dim + n →
        (marchCells sv fl l st).2.sourceVec x k
          = (processCell sv fl.dim fl.time fl.dt x cf st0).2.sourceVec x k := by
  induction l generalizing st with
  | nil => obtain ⟨c, hc, _⟩ := hx; cases hc
  | cons b bs ih =>
    unfold marchCells at h0 ⊢
    cases hb : fl.flowArray (cellOf fl.cells b) with
    | none =>
      rw [hb] at h0
      simp only [] at h0 ⊢
      refine ih st h0 ?_ hdt
      obtain ⟨c, hc, hcx⟩ := hx
      rcases List.mem_cons.mp hc with rfl | hc'
      · rw [hcx, hcf] at hb; cases hb
      · exact ⟨c, hc', hcx⟩
    | some cfb =>
      rw [hb] at h0
      simp only [] at h0 ⊢
      by_cases hr : (processCell sv fl.dim fl.time fl.dt (cellOf fl.cells b) cfb st).1 = 0
      · rw [if_neg (not_not.mpr hr)] at h0 ⊢
        have hd1 := (processCell_frame sv fl.dim fl.time fl.dt (cellOf fl.cells b) cfb st).1
        by_cases hbs : ∃ c ∈ bs, cellOf fl.cells c = x
        · exact ih _ h0 hbs (hdt.trans hd1.symm)
        · have hbx : cellOf fl.cells b = x := by
            obtain ⟨c, hc, hcx⟩ := hx
            rcases List.mem_cons.mp hc with rfl | hc'
            · exact hcx
            · exact absurd ⟨c, hc', hcx⟩ hbs
          have hcfb : cfb = cf := by
            rw [hbx, hcf] at hb
            exact (Option.some.inj hb).symm
          subst hcfb
          rw [hbx] at hr
          refine ⟨(processCell_code_congr sv fl.dim fl.time fl.dt x x cfb st0 st hdt).trans hr,
            fun k hk => ?_⟩
          rw [marchCells_frame sv fl bs _ x (fun c hc hcx => hbs ⟨c, hc, hcx⟩), hbx]
          exact processCell_block_congr sv fl.dim fl.time fl.dt x cfb st st0 hdt.symm hr k hk
      · rw [if_pos hr] at h0
        exact absurd h0 hr

/-- The loop returns 0 when the body returns 0 on every real cell it visits. -/
theorem marchCells_code {n : Nat} (sv : Services n) (fl : FlowData) (l : List Nat)
    (st : Solver n)
    (h : ∀ c ∈ l, ∀ cf, fl.flowArray (cellOf fl.cells c) = some cf →
      (processCell sv fl.dim fl.time fl.dt (cellOf fl.cells c) cf st).1 = 0) :
    (marchCells sv fl l st).1 = 0 := by
  induction l generalizing st with
  | nil => rfl
  | cons b bs ih =>
    unfold marchCells
    cases hb : fl.flowArray (cellOf fl.cells b) with
    | none => exact ih st (fun c hc => h c (List.mem_cons_of_mem b hc))
    | some cfb =>
      simp only []
      have hr := h b (List.mem_cons_self b bs) cfb hb
      rw [if_neg (not_not.mpr hr)]
      refine ih _ (fun c hc cf hcf => ?_)
      rw [← h c (List.mem_cons_of_mem b hc) cf hcf]
      exact processCell_code_congr sv fl.dim fl.time fl.dt _ _ cf _ st
        (processCell_frame sv fl.dim fl.time fl.dt _ cfb st).1

/-! ## The stage: blocks of a failed and of a successful cell -/

theorem stage_eq_marchCells {n : Nat} (sv : Services n) (fl : FlowData) (stagetime : ℚ)
    (st : Solver n) (htime : fl.time = stagetime) :
    ChemistryFlowPreStage sv fl stagetime st = marchCells sv fl (cellRange fl) st := by
  unfold ChemistryFlowPreStage
  rw [if_neg (not_not.mpr htime)]

/-- After a stage that ran its loop and returned 0, the block of a visited real cell whose solve
failed is the one `writeZeroSource` leaves. -/
theorem stage_block_of_fail {n : Nat} (sv : Services n) (fl : FlowData) (stagetime : ℚ)
    (st : Solver n) (c : Nat) (cf : CellFields) (loc : Locals) (st1 : Solver n)
    (htime : fl.time = stagetime) (hret : (ChemistryFlowPreStage sv fl stagetime st).1 = 0)
    (hc : c ∈ cellRange fl) (hcf : fl.flowArray (cellOf fl.cells c) = some cf)
    (hpre : preSolve sv fl.dim fl.time fl.dt cf st = .ok (loc, st1))
    (hfail : (sv.TSSolve st1.ts st1.thermoPres st1.pointData).1 ≠ 0)
    (k : Nat) (hk : k < RHOU + fl.dim + n) :
    (ChemistryFlowPreStage sv fl stagetime st).2.sourceVec (cellOf fl.cells c) k
      = writeZeroSource fl.dim n (st1.sourceVec (cellOf fl.cells c)) k := by
  unfold ChemistryFlowPreStage at hret ⊢
  rw [if_neg (not_not.mpr htime)] at hret ⊢
  rw [(marchCells_block sv fl (cellRange fl) st hret _ ⟨c, hc, rfl⟩ cf hcf st rfl).2 k hk]
  unfold processCell
  rw [hpre]
  simp only []
  rw [(solveAndStore_of_fail sv fl.dim fl.dt _ cf loc st1 hfail).2]

/-- After a stage that ran its loop and returned 0, the block of a visited real cell whose solve
succeeded is the one `writeSource` leaves, with the updated internal energy and the point state
of that cell's solve. -/
theorem stage_block_of_success {n : Nat} (sv : Services n) (fl : FlowData) (stagetime : ℚ)
    (st : Solver n) (c : Nat) (cf : CellFields) (loc : Locals) (st1 : Solver n)
    (htime : fl.time = stagetime) (hret : (ChemistryFlowPreStage sv fl stagetime st).1 = 0)
    (hc : c ∈ cellRange fl) (hcf : fl.flowArray (cellOf fl.cells c) = some cf)
    (hpre : preSolve sv fl.dim fl.time fl.dt cf st = .ok (loc, st1))
    (hsolve : (sv.TSSolve st1.ts st1.thermoPres st1.pointData).1 = 0)
    (k : Nat) (hk : k < RHOU + fl.dim + n) :
    (ChemistryFlowPreStage sv fl stagetime st).2.sourceVec (cellOf fl.cells c) k
      = writeSource fl.dim n fl.dt cf
          (updatedInternalEnergy loc.enerTotal
            (sv.ComputeEnthalpyOfFormation
              (sv.TSSolve st1.ts st1.thermoPres st1.pointData).2.2).2)
          (sv.TSSolve st1.ts st1.thermoPres st1.pointData).2.2
          (st1.sourceVec (cellOf fl.cells c)) k := by
  unfold ChemistryFlowPreStage at hret ⊢
  rw [if_neg (not_not.mpr htime)] at hret ⊢
  obtain ⟨hcode, hblock⟩ :=
    marchCells_block sv fl (cellRange fl) st hret _ ⟨c, hc, rfl⟩ cf hcf st rfl
  rw [hblock k hk]
  unfold processCell at hcode ⊢
  rw [hpre] at hcode ⊢
  simp only [] at hcode ⊢
  have hhof := (solveAndStore_code sv fl.dim fl.dt _ cf loc st1).mp hcode hsolve
  rw [(solveAndStore_of_success sv fl.dim fl.dt _ cf loc st1 hsolve hhof).2]

theorem PetscMax_eq_max (a b : ℚ) : PetscMax a b = max a b := by
  unfold PetscMax
  split_ifs with h
  · exact (max_eq_right (le_of_lt h)).symm
  · exact (max_eq_left (not_lt.mp h)).symm

theorem PetscMin_eq_min (a b : ℚ) : PetscMin a b = min a b := by
  unfold PetscMin
  split_ifs with h
  · exact (min_eq_left (le_of_lt h)).symm
  · exact (min_eq_right (not_lt.mp h)).symm

/-- The property calls of a cell succeed exactly when the loop body returns 0 on it: a failed
solve never makes the body return a non-zero code. -/
theorem propertyCallsSucceed_iff {n : Nat} (sv : Services n) (dim : Nat) (time dt : ℚ)
    (cell : Nat) (cf : CellFields) (st : Solver n) :
    PropertyCallsSucceed sv dim time dt cf st ↔ (processCell sv dim time dt cell cf st).1 = 0 := by
  unfold PropertyCallsSucceed processCell
  cases h : preSolve sv dim time dt cf st with
  | error e =>
    simp only []
    exact ⟨False.elim, fun h0 => (preSolve_error sv dim time dt cf st e h).1 h0⟩
  | ok r =>
    obtain ⟨loc, st1⟩ := r
    simp only []
    exact (solveAndStore_code sv dim dt cell cf loc st1).symm

theorem processCell_solveCalls {n : Nat} (sv : Services n) (dim : Nat) (time dt : ℚ)
    (cell : Nat) (cf : CellFields) (st : Solver n)
    (h0 : (processCell sv dim time dt cell cf st).1 = 0) :
    (processCell sv dim time dt cell cf st).2.solveCalls = st.solveCalls + 1 := by
  unfold processCell at h0 ⊢
  cases h : preSolve sv dim time dt cf st with
  | error e =>
    rw [h] at h0
    exact absurd h0 (preSolve_error sv dim time dt cf st e h).1
  | ok r =>
    obtain ⟨loc, st1⟩ := r
    obtain ⟨_, _, hs, _⟩ := preSolve_ok sv dim time dt cf st loc st1 h
    simp only []
    rw [(solveAndStore_frame sv dim dt cell cf loc st1).2.1, hs]

/-- When the loop returns 0 it has called `TSSolve` once for every real cell of the range. -/
theorem marchCells_solveCalls {n : Nat} (sv : Services n) (fl : FlowData) (l : List Nat)
    (st : Solver n) (h0 : (marchCells sv fl l st).1 = 0) :
    (marchCells sv fl l st).2.solveCalls = st.solveCalls + realCellCount fl l := by
  induction l generalizing st with
  | nil => rfl
  | cons b bs ih =>
    unfold marchCells at h0 ⊢
    unfold realCellCount at ih ⊢
    cases hb : fl.flowArray (cellOf fl.cells b) with
    | none =>
      rw [hb] at h0
      simp only [] at h0 ⊢
      rw [ih st h0, List.countP_cons_of_neg _ _ (by rw [hb]; simp)]
    | some cfb =>
      rw [hb] at h0
      simp only [] at h0 ⊢
      by_cases hr : (processCell sv fl.dim fl.time fl.dt (cellOf fl.cells b) cfb st).1 = 0
      · rw [if_neg (not_not.mpr hr)] at h0 ⊢
        rw [ih _ h0, processCell_solveCalls sv fl.dim fl.time fl.dt _ cfb st hr,
          List.countP_cons_of_pos _ _ (by rw [hb]; simp)]
        omega
      · rw [if_pos hr] at h0
        exact absurd h0 hr

/-! ## The residual update of `AddChemistrySourceToFlow` -/

theorem addSource_apply (totDim : Nat) (source rhs : Nat → ℚ) (d : Nat) :
    addSource totDim source rhs d = if d < totDim then rhs d + source d else rhs d := by
  unfold addSource
  induction totDim with
  | zero => simp
  | succ m ih =>
    rw [List.range_succ, List.foldl_append, List.foldl_cons, List.foldl_nil]
    by_cases hd : d = m
    · subst hd
      rw [Function.update_same, ih, if_neg (Nat.lt_irrefl d), if_pos (Nat.lt_succ_self d)]
    · rw [Function.update_noteq hd, ih]
      by_cases hlt : d < m
      · rw [if_pos hlt, if_pos (Nat.lt_succ_of_lt hlt)]
      · rw [if_neg hlt, if_neg (by omega)]

/-- The loop leaves the block of a point it does not visit unchanged. -/
theorem addCells_of_not_mem (totDim : Nat) (cells : Option (Nat → Nat))
    (sourceArray : Nat → Nat → ℚ) (l : List Nat) (fArray : Nat → Option (Nat → ℚ)) (x : Nat)
    (hx : ∀ c ∈ l, cellOf cells c ≠ x) :
    addCells totDim cells sourceArray l fArray x = fArray x := by
  induction l generalizing fArray with
  | nil => rfl
  | cons b bs ih =>
    have hbs : ∀ c ∈ bs, cellOf cells c ≠ x := fun c hc => hx c (List.mem_cons_of_mem b hc)
    have hb' : x ≠ cellOf cells b := fun h => hx b (List.mem_cons_self b bs) h.symm
    unfold addCells
    cases hb : fArray (cellOf cells b) with
    | none => exact ih fArray hbs
    | some rhs =>
      simp only []
      rw [ih _ hbs, Function.update_noteq hb']

/-- A ghost point stays a ghost point. -/
theorem addCells_none (totDim : Nat) (cells : Option (Nat → Nat))
    (sourceArray : Nat → Nat → ℚ) (l : List Nat) (fArray : Nat → Option (Nat → ℚ)) (x : Nat)
    (hx : fArray x = none) :
    addCells totDim cells sourceArray l fArray x = none := by
  induction l generalizing fArray with
  | nil => exact hx
  | cons b bs ih =>
    unfold addCells
    cases hb : fArray (cellOf cells b) with
    | none => exact ih fArray hx
    | some rhs =>
      simp only []
      refine ih _ ?_
      have hne : x ≠ cellOf cells b := fun h => by rw [h, hb] at hx; cases hx
      rw [Function.update_noteq hne, hx]

/-- A real cell visited by exactly one loop index gets its source block added once. -/
theorem addCells_of_mem (totDim : Nat) (cells : Option (Nat → Nat))
    (sourceArray : Nat → Nat → ℚ) (l : List Nat) (fArray : Nat → Option (Nat → ℚ))
    (hnodup : (l.map (cellOf cells)).Nodup) (c : Nat) (hc : c ∈ l) (rhs : Nat → ℚ)
    (hrhs : fArray (cellOf cells c) = some rhs) :
    addCells totDim cells sourceArray l fArray (cellOf cells c)
      = some (addSource totDim (sourceArray (cellOf cells c)) rhs) := by
  induction l generalizing fArray with
  | nil => cases hc
  | cons b bs ih =>
    rw [List.map_cons, List.nodup_cons] at hnodup
    obtain ⟨hb_nin, hbs_nd⟩ := hnodup
    unfold addCells
    rcases List.mem_cons.mp hc with rfl | hc'
    · rw [hrhs]
      simp only []
      rw [addCells_of_not_mem totDim cells sourceArray bs _ _
        (fun c' hc' h => hb_nin (by rw [← h]; exact List.mem_map_of_mem _ hc')),
        Function.update_same]
    · have hne : cellOf cells c ≠ cellOf cells b :=
        fun h => hb_nin (by rw [← h]; exact List.mem_map_of_mem _ hc')
      cases hb : fArray (cellOf cells b) with
      | none => exact ih fArray hbs_nd hc' hrhs
      | some rhsb =>
        simp only []
        exact ih _ hbs_nd hc' (by rw [Function.update_noteq hne, hrhs])

/-- When the property calls succeed on every real cell of the range, the stage that runs its
loop returns 0, whatever `TSSolve` returns. -/
theorem stage_code_of_propertyCalls {n : Nat} (sv : Services n) (fl : FlowData) (stagetime : ℚ)
    (st st' : Solver n) (hdt : st'.dtInit = st.dtInit) (htime : fl.time = stagetime)
    (hprop : ∀ c ∈ cellRange fl, ∀ cf, fl.flowArray (cellOf fl.cells c) = some cf →
      PropertyCallsSucceed sv fl.dim fl.time fl.dt cf st) :
    (ChemistryFlowPreStage sv fl stagetime st').1 = 0 := by
  unfold ChemistryFlowPreStage
  rw [if_neg (not_not.mpr htime)]
  refine marchCells_code sv fl (cellRange fl) st' (fun c hc cf hcf => ?_)
  rw [processCell_code_congr sv fl.dim fl.time fl.dt _ (cellOf fl.cells c) cf st' st hdt]
  exact (propertyCallsSucceed_iff sv fl.dim fl.time fl.dt _ cf st).mp (hprop c hc cf hcf)

/-! ## Facts of the concrete run -/

theorem loadPointArray_one (T : ℚ) (cf : CellFields) (p : Fin 2 → ℚ) :
    loadPointArray 1 T cf p 1 = PetscMin (PetscMax 0 (cf.densityYi 0 / cf.euler RHO)) 1 :=
  loadPointArray_succ 1 T cf p 0

theorem example_pre0 :
    preSolve exampleServices exampleFlow.dim exampleFlow.time exampleFlow.dt exampleCell0
      exampleSolver = .ok (exampleLocals0, exampleInput0) := by
  norm_num [preSolve, exampleServices, exampleFlow, exampleCell0, exampleSolver, exampleLocals0,
    exampleInput0, RHO, RHOE, RHOU, softReset, loadPointArray_one, PetscMin, PetscMax]

theorem example_pre1 :
    preSolve exampleServices exampleFlow.dim exampleFlow.time exampleFlow.dt exampleCell1
      exampleSolver = .ok (exampleLocals1, exampleInput1) := by
  norm_num [preSolve, exampleServices, exampleFlow, exampleCell1, exampleSolver, exampleLocals1,
    exampleInput1, RHO, RHOE, RHOU, softReset, loadPointArray_one, PetscMin, PetscMax]

theorem example_solve0 :
    (exampleServices.TSSolve exampleInput0.ts exampleInput0.thermoPres
      exampleInput0.pointData).1 = 0 := by
  norm_num [exampleServices, exampleInput0, loadPointArray_zero]

theorem example_solve1 :
    (exampleServices.TSSolve exampleInput1.ts exampleInput1.thermoPres
      exampleInput1.pointData).1 ≠ 0 := by
  norm_num [exampleServices, exampleInput1, loadPointArray_zero]

theorem example_mem0 : 0 ∈ cellRange exampleFlow := by decide

theorem example_mem1 : 1 ∈ cellRange exampleFlow := by decide

theorem example_cell0 :
    exampleFlow.flowArray (cellOf exampleFlow.cells 0) = some exampleCell0 := rfl

theorem example_cell1 :
    exampleFlow.flowArray (cellOf exampleFlow.cells 1) = some exampleCell1 := rfl

theorem example_propertyCalls :
    ∀ c ∈ cellRange exampleFlow, ∀ cf,
      exampleFlow.flowArray (cellOf exampleFlow.cells c) = some cf →
        PropertyCallsSucceed exampleServices exampleFlow.dim exampleFlow.time exampleFlow.dt cf
          exampleSolver := by
  intro c _ cf _
  simp [PropertyCallsSucceed, preSolve, exampleServices]

theorem example_code :
    (ChemistryFlowPreStage exampleServices exampleFlow 0 exampleSolver).1 = 0 :=
  stage_code_of_propertyCalls _ _ _ _ _ rfl rfl example_propertyCalls

/-! ## Claims -/

/-- C1: when `ChemistryFlowPreStage` runs its cell loop and returns 0, every component of the
source block of a visited real cell whose point solve `TSSolve` returned a non-zero code is
exactly 0: the density component, the energy component, the `dim` momentum components and the
`numberSpecies` species components.  The part of the loop body before the solve reads nothing
of the state but `dtInit`, so the cell's solve input `st1` is the one `preSolve` computes from
the state the stage started in. -/
theorem failed_solve_writes_zero_source {n : Nat} (sv : Services n) (fl : FlowData)
    (stagetime : ℚ) (st : Solver n) (c : Nat) (cf : CellFields) (loc : Locals) (st1 : Solver n)
    (htime : fl.time = stagetime) (hret : (ChemistryFlowPreStage sv fl stagetime st).1 = 0)
    (hc : c ∈ cellRange fl) (hcf : fl.flowArray (cellOf fl.cells c) = some cf)
    (hpre : preSolve sv fl.dim fl.time fl.dt cf st = .ok (loc, st1))
    (hfail : (sv.TSSolve st1.ts st1.thermoPres st1.pointData).1 ≠ 0) :
    (ChemistryFlowPreStage sv fl stagetime st).2.sourceVec (cellOf fl.cells c) RHO = 0
      ∧ (ChemistryFlowPreStage sv fl stagetime st).2.sourceVec (cellOf fl.cells c) RHOE = 0
      ∧ (∀ d, d < fl.dim →
          (ChemistryFlowPreStage sv fl stagetime st).2.sourceVec (cellOf fl.cells c) (RHOU + d) = 0)
      ∧ (∀ sp, sp < n →
          (ChemistryFlowPreStage sv fl stagetime st).2.sourceVec (cellOf fl.cells c)
            (RHOU + fl.dim + sp) = 0) := by
  have key : ∀ k, k < RHOU + fl.dim + n →
      (ChemistryFlowPreStage sv fl stagetime st).2.sourceVec (cellOf fl.cells c) k = 0 :=
    fun k hk => by
      rw [stage_block_of_fail sv fl stagetime st c cf loc st1 htime hret hc hcf hpre hfail k hk,
        writeZeroSource_lt _ _ _ k hk]
  have h0 : RHO = 0 := rfl
  have h1 : RHOE = 1 := rfl
  have h2 : RHOU = 2 := rfl
  exact ⟨key _ (by omega), key _ (by omega), fun d hd => key _ (by omega),
    fun sp hsp => key _ (by omega)⟩

/-- C3: for a real cell with non-zero density whose calls before the solve succeeded, with
`hof` the formation enthalpy of the pre-integration point state and
`enerTotal = hof + RHOE / RHO`, the updated internal energy `enerTotal - updatedHof` satisfies
`density * updatedInternalEnergy + density * updatedHof
  = density * (RHOE / RHO) + density * hof` for every value of `updatedHof`; the common value is
`RHOE + density * hof`. -/
theorem energy_conserved_across_split {n : Nat} (sv : Services n) (dim : Nat) (time dt : ℚ)
    (cf : CellFields) (st : Solver n) (loc : Locals) (st1 : Solver n) (updatedHof : ℚ)
    (hrho : cf.euler RHO ≠ 0)
    (hpre : preSolve sv dim time dt cf st = .ok (loc, st1)) :
    loc.hof = (sv.ComputeEnthalpyOfFormation st1.pointData).2
      ∧ cf.euler RHO * updatedInternalEnergy loc.enerTotal updatedHof
          + cf.euler RHO * updatedHof
        = cf.euler RHO * (cf.euler RHOE / cf.euler RHO) + cf.euler RHO * loc.hof
      ∧ cf.euler RHO * updatedInternalEnergy loc.enerTotal updatedHof
          + cf.euler RHO * updatedHof
        = cf.euler RHOE + cf.euler RHO * loc.hof := by
  obtain ⟨_, _, _, _, _, _, _, _, hhof, hener⟩ := preSolve_ok sv dim time dt cf st loc st1 hpre
  refine ⟨hhof, ?_, ?_⟩
  · rw [hener]
    unfold updatedInternalEnergy
    ring
  · rw [hener]
    unfold updatedInternalEnergy
    field_simp
    ring

/-- C4: when `ChemistryFlowPreStage` runs its cell loop and returns 0, the energy component of
the source block of a visited real cell whose solve succeeded is
`(density * updated_internal_energy - RHOE) / dt` with
`updated_internal_energy = (hof of the pre-integration state + RHOE / density)
  - hof of the post-integration state`. -/
theorem energy_source_value {n : Nat} (sv : Services n) (fl : FlowData)
    (stagetime : ℚ) (st : Solver n) (c : Nat) (cf : CellFields) (loc : Locals) (st1 : Solver n)
    (htime : fl.time = stagetime) (hret : (ChemistryFlowPreStage sv fl stagetime st).1 = 0)
    (hc : c ∈ cellRange fl) (hcf : fl.flowArray (cellOf fl.cells c) = some cf)
    (hpre : preSolve sv fl.dim fl.time fl.dt cf st = .ok (loc, st1))
    (hsolve : (sv.TSSolve st1.ts st1.thermoPres st1.pointData).1 = 0) :
    (ChemistryFlowPreStage sv fl stagetime st).2.sourceVec (cellOf fl.cells c) RHOE
      = (cf.euler RHO
            * (((sv.ComputeEnthalpyOfFormation st1.pointData).2 + cf.euler RHOE / cf.euler RHO)
                - (sv.ComputeEnthalpyOfFormation
                    (sv.TSSolve st1.ts st1.thermoPres st1.pointData).2.2).2)
          - cf.euler RHOE) / fl.dt := by
  obtain ⟨_, _, _, _, _, _, _, _, hhof, hener⟩ :=
    preSolve_ok sv fl.dim fl.time fl.dt cf st loc st1 hpre
  have h1 : RHOE = 1 := rfl
  have h2 : RHOU = 2 := rfl
  rw [stage_block_of_success sv fl stagetime st c cf loc st1 htime hret hc hcf hpre hsolve RHOE
    (by omega), writeSource_RHOE, hener, hhof]
  rfl

/-- C5: when `ChemistryFlowPreStage` runs its cell loop and returns 0, for a visited real cell
whose solve succeeded and every species `sp < numberSpecies`, the component
`RHOU + dim + sp` of the source block is `(density * clamp(Y_sp, 0, 1) - densityYi[sp]) / dt`,
where `Y_sp` is entry `sp + 1` of the post-integration point state. -/
theorem species_source_value {n : Nat} (sv : Services n) (fl : FlowData)
    (stagetime : ℚ) (st : Solver n) (c : Nat) (cf : CellFields) (loc : Locals) (st1 : Solver n)
    (sp : Fin n)
    (htime : fl.time = stagetime) (hret : (ChemistryFlowPreStage sv fl stagetime st).1 = 0)
    (hc : c ∈ cellRange fl) (hcf : fl.flowArray (cellOf fl.cells c) = some cf)
    (hpre : preSolve sv fl.dim fl.time fl.dt cf st = .ok (loc, st1))
    (hsolve : (sv.TSSolve st1.ts st1.thermoPres st1.pointData).1 = 0) :
    (ChemistryFlowPreStage sv fl stagetime st).2.sourceVec (cellOf fl.cells c)
        (RHOU + fl.dim + sp.val)
      = (cf.euler RHO
            * min 1 (max ((sv.TSSolve st1.ts st1.thermoPres st1.pointData).2.2 sp.succ) 0)
          - cf.densityYi sp.val) / fl.dt := by
  have := sp.isLt
  rw [stage_block_of_success sv fl stagetime st c cf loc st1 htime hret hc hcf hpre hsolve _
    (by omega), writeSource_species, PetscMin_eq_min, PetscMax_eq_max]

/-- C6: when `ChemistryFlowPreStage` runs its cell loop and returns 0, the density component and
each of the `dim` momentum components of the source block of a visited real cell whose solve
succeeded are exactly 0, whatever the integrator returned as point state. -/
theorem density_momentum_source_zero {n : Nat} (sv : Services n) (fl : FlowData)
    (stagetime : ℚ) (st : Solver n) (c : Nat) (cf : CellFields) (loc : Locals) (st1 : Solver n)
    (htime : fl.time = stagetime) (hret : (ChemistryFlowPreStage sv fl stagetime st).1 = 0)
    (hc : c ∈ cellRange fl) (hcf : fl.flowArray (cellOf fl.cells c) = some cf)
    (hpre : preSolve sv fl.dim fl.time fl.dt cf st = .ok (loc, st1))
    (hsolve : (sv.TSSolve st1.ts st1.thermoPres st1.pointData).1 = 0) :
    (ChemistryFlowPreStage sv fl stagetime st).2.sourceVec (cellOf fl.cells c) RHO = 0
      ∧ ∀ d, d < fl.dim →
          (ChemistryFlowPreStage sv fl stagetime st).2.sourceVec (cellOf fl.cells c) (RHOU + d)
            = 0 := by
  have h0 : RHO = 0 := rfl
  have h2 : RHOU = 2 := rfl
  refine ⟨?_, fun d hd => ?_⟩
  · rw [stage_block_of_success sv fl stagetime st c cf loc st1 htime hret hc hcf hpre hsolve RHO
      (by omega), writeSource_RHO]
  · rw [stage_block_of_success sv fl stagetime st c cf loc st1 htime hret hc hcf hpre hsolve _
      (by omega), writeSource_RHOU _ _ _ _ _ _ _ d hd]

/-- C7: for every raw post-integration value `Y`, the mass fraction used in the species source,
`PetscMin(1.0, PetscMax(Y, 0.0))`, lies in `[0, 1]`; it is `Y` when `Y` is in `[0, 1]`, `0` when
`Y < 0` and `1` when `Y > 1`; and it is this value that the store of line 390 uses for a species
whose post-integration point-state entry is `Y`. -/
theorem clamped_mass_fraction_bounds (Y : ℚ) :
    0 ≤ PetscMin 1 (PetscMax Y 0) ∧ PetscMin 1 (PetscMax Y 0) ≤ 1
      ∧ (0 ≤ Y → Y ≤ 1 → PetscMin 1 (PetscMax Y 0) = Y)
      ∧ (Y < 0 → PetscMin 1 (PetscMax Y 0) = 0)
      ∧ (1 < Y → PetscMin 1 (PetscMax Y 0) = 1)
      ∧ ∀ (dim n : Nat) (dt : ℚ) (cf : CellFields) (u : ℚ) (pointArray : Fin (n + 1) → ℚ)
          (fieldSource : Nat → ℚ) (sp : Fin n), pointArray sp.succ = Y →
          writeSource dim n dt cf u pointArray fieldSource (RHOU + dim + sp.val)
            = (cf.euler RHO * PetscMin 1 (PetscMax Y 0) - cf.densityYi sp.val) / dt := by
  refine ⟨?_, ?_, ?_, ?_, ?_, ?_⟩
  · unfold PetscMin PetscMax; split_ifs <;> linarith
  · unfold PetscMin PetscMax; split_ifs <;> linarith
  · intro h0 h1; unfold PetscMin PetscMax; split_ifs <;> linarith
  · intro h0; unfold PetscMin PetscMax; split_ifs <;> linarith
  · intro h1; unfold PetscMin PetscMax; split_ifs <;> linarith
  · intro dim n dt cf u pointArray fieldSource sp hY
    rw [writeSource_species, hY]

/-- C9: a call of `ChemistryFlowPreStage` whose stage time differs from the time of the flow
time stepper returns 0, makes no call of the point integrator `TSSolve` and leaves the whole
state, every entry of the chemistry source field included, unchanged. -/
theorem stage_skipped_off_first_stage {n : Nat} (sv : Services n) (fl : FlowData)
    (stagetime : ℚ) (st : Solver n) (htime : stagetime ≠ fl.time) :
    (ChemistryFlowPreStage sv fl stagetime st).1 = 0
      ∧ (ChemistryFlowPreStage sv fl stagetime st).2.solveCalls = st.solveCalls
      ∧ (∀ cell k, (ChemistryFlowPreStage sv fl stagetime st).2.sourceVec cell k
          = st.sourceVec cell k)
      ∧ (ChemistryFlowPreStage sv fl stagetime st).2 = st := by
  unfold ChemistryFlowPreStage
  rw [if_pos (Ne.symm htime)]
  exact ⟨rfl, rfl, fun _ _ => rfl, rfl⟩

/-- C2: a failed point solve does not abort the stage.  When the stage runs its loop and the
thermodynamic property calls succeed on every real cell of the range, then whatever `TSSolve`
returns on any cell (failures included) the stage returns 0, it has called `TSSolve` once for
every real cell of the range, and the source block of every visited real cell is the block the
loop body computes from that cell's own inputs (its `euler` and `densityYi` blocks, `time` and
`dt`) when it is run on that cell alone from an arbitrary state `st0` with the same `dtInit`:
no other cell, failed or not, has any influence on it. -/
theorem failed_solve_is_isolated {n : Nat} (sv : Services n) (fl : FlowData) (stagetime : ℚ)
    (st : Solver n) (htime : fl.time = stagetime)
    (hprop : ∀ c ∈ cellRange fl, ∀ cf, fl.flowArray (cellOf fl.cells c) = some cf →
      PropertyCallsSucceed sv fl.dim fl.time fl.dt cf st) :
    (ChemistryFlowPreStage sv fl stagetime st).1 = 0
      ∧ (ChemistryFlowPreStage sv fl stagetime st).2.solveCalls
          = st.solveCalls + realCellCount fl (cellRange fl)
      ∧ ∀ c ∈ cellRange fl, ∀ cf, fl.flowArray (cellOf fl.cells c) = some cf →
          ∀ st0 : Solver n, st0.dtInit = st.dtInit → ∀ k, k < RHOU + fl.dim + n →
            (ChemistryFlowPreStage sv fl stagetime st).2.sourceVec (cellOf fl.cells c) k
              = (processCell sv fl.dim fl.time fl.dt (cellOf fl.cells c) cf st0).2.sourceVec
                  (cellOf fl.cells c) k := by
  have hret := stage_code_of_propertyCalls sv fl stagetime st st rfl htime hprop
  refine ⟨hret, ?_, fun c hc cf hcf st0 hdt k hk => ?_⟩
  · unfold ChemistryFlowPreStage at hret ⊢
    rw [if_neg (not_not.mpr htime)] at hret ⊢
    exact marchCells_solveCalls sv fl (cellRange fl) st hret
  · unfold ChemistryFlowPreStage at hret ⊢
    rw [if_neg (not_not.mpr htime)] at hret ⊢
    exact (marchCells_block sv fl (cellRange fl) st hret _ ⟨c, hc, rfl⟩ cf hcf st0 hdt).2 k hk

/-- C8: when the stage runs its loop and the thermodynamic property calls succeed on every real
cell of the range, a second run that differs only in the prior contents `sourceVec'` of the
source field returns 0 as well and leaves, for every visited real cell, the same value in every
one of the `RHOU + dim + numberSpecies` components of the cell's block, whether the cell's solve
succeeded or failed: all of them are written in the invocation. -/
theorem source_block_fully_overwritten {n : Nat} (sv : Services n) (fl : FlowData)
    (stagetime : ℚ) (st : Solver n) (sourceVec' : Nat → Nat → ℚ) (htime : fl.time = stagetime)
    (hprop : ∀ c ∈ cellRange fl, ∀ cf, fl.flowArray (cellOf fl.cells c) = some cf →
      PropertyCallsSucceed sv fl.dim fl.time fl.dt cf st) :
    (ChemistryFlowPreStage sv fl stagetime st).1 = 0
      ∧ (ChemistryFlowPreStage sv fl stagetime { st with sourceVec := sourceVec' }).1 = 0
      ∧ ∀ c ∈ cellRange fl, ∀ cf, fl.flowArray (cellOf fl.cells c) = some cf →
          ∀ k, k < RHOU + fl.dim + n →
            (ChemistryFlowPreStage sv fl stagetime st).2.sourceVec (cellOf fl.cells c) k
              = (ChemistryFlowPreStage sv fl stagetime
                  { st with sourceVec := sourceVec' }).2.sourceVec (cellOf fl.cells c) k := by
  have hret := stage_code_of_propertyCalls sv fl stagetime st st rfl htime hprop
  have hret' := stage_code_of_propertyCalls sv fl stagetime st
    { st with sourceVec := sourceVec' } rfl htime hprop
  refine ⟨hret, hret', fun c hc cf hcf k hk => ?_⟩
  rw [stage_eq_marchCells sv fl stagetime _ htime] at hret hret' ⊢
  rw [stage_eq_marchCells sv fl stagetime _ htime]
  rw [(marchCells_block sv fl (cellRange fl) st hret _ ⟨c, hc, rfl⟩ cf hcf st rfl).2 k hk,
    (marchCells_block sv fl (cellRange fl) _ hret' _ ⟨c, hc, rfl⟩ cf hcf st rfl).2 k hk]

/-- C10: `AddChemistrySourceToFlow` is pure accumulation.  For a cell range that visits no point
twice, the call returns 0; for every visited real cell (non-null `rhs`) the residual block after
the call is the block before plus the cell's source entry in every component `d < totDim` and is
unchanged in every other component; a ghost point has no residual entry before or after; a point
outside the range keeps its residual block; and the solver object, the chemistry source field
included, is the same after the call as before. -/
theorem add_source_is_pure_accumulation {n : Nat} (totDim cStart cEnd : Nat)
    (cells : Option (Nat → Nat)) (fVec : Nat → Option (Nat → ℚ)) (solver : Solver n)
    (hnodup : ((List.range' cStart (cEnd - cStart)).map (cellOf cells)).Nodup) :
    (AddChemistrySourceToFlow totDim cStart cEnd cells fVec solver).1 = 0
      ∧ (∀ c ∈ List.range' cStart (cEnd - cStart), ∀ rhs, fVec (cellOf cells c) = some rhs →
          ∃ rhs', (AddChemistrySourceToFlow totDim cStart cEnd cells fVec solver).2.1
                (cellOf cells c) = some rhs'
            ∧ (∀ d, d < totDim → rhs' d = rhs d + solver.sourceVec (cellOf cells c) d)
            ∧ (∀ d, totDim ≤ d → rhs' d = rhs d))
      ∧ (∀ x, fVec x = none →
          (AddChemistrySourceToFlow totDim cStart cEnd cells fVec solver).2.1 x = none)
      ∧ (∀ x, (∀ c ∈ List.range' cStart (cEnd - cStart), cellOf cells c ≠ x) →
          (AddChemistrySourceToFlow totDim cStart cEnd cells fVec solver).2.1 x = fVec x)
      ∧ (AddChemistrySourceToFlow totDim cStart cEnd cells fVec solver).2.2 = solver
      ∧ (∀ cell k, (AddChemistrySourceToFlow totDim cStart cEnd cells fVec solver).2.2.sourceVec
          cell k = solver.sourceVec cell k) := by
  unfold AddChemistrySourceToFlow
  refine ⟨rfl, fun c hc rhs hrhs => ?_, fun x hx => ?_, fun x hx => ?_, rfl, fun _ _ => rfl⟩
  · refine ⟨_, addCells_of_mem totDim cells solver.sourceVec _ fVec hnodup c hc rhs hrhs,
      fun d hd => ?_, fun d hd => ?_⟩
    · rw [addSource_apply, if_pos hd]
    · rw [addSource_apply, if_neg (by omega)]
  · exact addCells_none totDim cells solver.sourceVec _ fVec x hx
  · exact addCells_of_not_mem totDim cells solver.sourceVec _ fVec x hx

/-! ## The claims on the concrete run -/

/-- C1 on the concrete run: the solve of point 1 fails and its whole block is zero. -/
theorem failed_solve_writes_zero_source_witness :
    (exampleFlow.time = 0
      ∧ (ChemistryFlowPreStage exampleServices exampleFlow 0 exampleSolver).1 = 0
      ∧ 1 ∈ cellRange exampleFlow
      ∧ exampleFlow.flowArray (cellOf exampleFlow.cells 1) = some exampleCell1
      ∧ preSolve exampleServices exampleFlow.dim exampleFlow.time exampleFlow.dt exampleCell1
          exampleSolver = .ok (exampleLocals1, exampleInput1)
      ∧ (exampleServices.TSSolve exampleInput1.ts exampleInput1.thermoPres
          exampleInput1.pointData).1 ≠ 0)
    ∧ ((ChemistryFlowPreStage exampleServices exampleFlow 0 exampleSolver).2.sourceVec 1 RHO = 0
      ∧ (ChemistryFlowPreStage exampleServices exampleFlow 0 exampleSolver).2.sourceVec 1 RHOE = 0
      ∧ (∀ d, d < 1 →
          (ChemistryFlowPreStage exampleServices exampleFlow 0 exampleSolver).2.sourceVec 1
            (RHOU + d) = 0)
      ∧ (∀ sp, sp < 1 →
          (ChemistryFlowPreStage exampleServices exampleFlow 0 exampleSolver).2.sourceVec 1
            (RHOU + 1 + sp) = 0)) :=
  ⟨⟨rfl, example_code, example_mem1, example_cell1, example_pre1, example_solve1⟩,
    failed_solve_writes_zero_source exampleServices exampleFlow 0 exampleSolver 1 exampleCell1
      exampleLocals1 exampleInput1 rfl example_code example_mem1 example_cell1 example_pre1
      example_solve1⟩

/-- C2 on the concrete run: the solve of point 1 fails, the stage returns 0 after two solves,
and component 3 of the block of point 0 is the one the loop body computes on point 0 alone. -/
theorem failed_solve_is_isolated_witness :
    (exampleServices.TSSolve exampleInput1.ts exampleInput1.thermoPres
        exampleInput1.pointData).1 ≠ 0
      ∧ exampleFlow.time = 0
      ∧ (ChemistryFlowPreStage exampleServices exampleFlow 0 exampleSolver).1 = 0
      ∧ (ChemistryFlowPreStage exampleServices exampleFlow 0 exampleSolver).2.solveCalls = 2
      ∧ (ChemistryFlowPreStage exampleServices exampleFlow 0 exampleSolver).2.sourceVec 0 3
          = (processCell exampleServices 1 0 1 0 exampleCell0 exampleSolver).2.sourceVec 0 3 :=
  ⟨example_solve1, rfl,
    (failed_solve_is_isolated exampleServices exampleFlow 0 exampleSolver rfl
      example_propertyCalls).1,
    (failed_solve_is_isolated exampleServices exampleFlow 0 exampleSolver rfl
      example_propertyCalls).2.1,
    (failed_solve_is_isolated exampleServices exampleFlow 0 exampleSolver rfl
      example_propertyCalls).2.2 0 example_mem0 exampleCell0 example_cell0 exampleSolver rfl 3
      (by decide)⟩

/-- C3 on the concrete run: point 1 with an updated formation enthalpy of 3. -/
theorem energy_conserved_across_split_witness :
    (exampleCell1.euler RHO ≠ 0
      ∧ preSolve exampleServices exampleFlow.dim exampleFlow.time exampleFlow.dt exampleCell1
          exampleSolver = .ok (exampleLocals1, exampleInput1))
    ∧ (exampleLocals1.hof = (exampleServices.ComputeEnthalpyOfFormation exampleInput1.pointData).2
      ∧ exampleCell1.euler RHO * updatedInternalEnergy exampleLocals1.enerTotal 3
          + exampleCell1.euler RHO * 3
        = exampleCell1.euler RHO * (exampleCell1.euler RHOE / exampleCell1.euler RHO)
          + exampleCell1.euler RHO * exampleLocals1.hof
      ∧ exampleCell1.euler RHO * updatedInternalEnergy exampleLocals1.enerTotal 3
          + exampleCell1.euler RHO * 3
        = exampleCell1.euler RHOE + exampleCell1.euler RHO * exampleLocals1.hof) :=
  ⟨⟨by norm_num [exampleCell1, RHO], example_pre1⟩,
    energy_conserved_across_split exampleServices exampleFlow.dim exampleFlow.time exampleFlow.dt
      exampleCell1 exampleSolver exampleLocals1 exampleInput1 3
      (by norm_num [exampleCell1, RHO]) example_pre1⟩

/-- C4 on the concrete run: the energy component of point 0, whose solve succeeds. -/
theorem energy_source_value_witness :
    (exampleFlow.time = 0
      ∧ (ChemistryFlowPreStage exampleServices exampleFlow 0 exampleSolver).1 = 0
      ∧ 0 ∈ cellRange exampleFlow
      ∧ exampleFlow.flowArray (cellOf exampleFlow.cells 0) = some exampleCell0
      ∧ preSolve exampleServices exampleFlow.dim exampleFlow.time exampleFlow.dt exampleCell0
          exampleSolver = .ok (exampleLocals0, exampleInput0)
      ∧ (exampleServices.TSSolve exampleInput0.ts exampleInput0.thermoPres
          exampleInput0.pointData).1 = 0)
    ∧ (ChemistryFlowPreStage exampleServices exampleFlow 0 exampleSolver).2.sourceVec 0 RHOE
      = (exampleCell0.euler RHO
            * (((exampleServices.ComputeEnthalpyOfFormation exampleInput0.pointData).2
                  + exampleCell0.euler RHOE / exampleCell0.euler RHO)
                - (exampleServices.ComputeEnthalpyOfFormation
                    (exampleServices.TSSolve exampleInput0.ts exampleInput0.thermoPres
                      exampleInput0.pointData).2.2).2)
          - exampleCell0.euler RHOE) / exampleFlow.dt :=
  ⟨⟨rfl, example_code, example_mem0, example_cell0, example_pre0, example_solve0⟩,
    energy_source_value exampleServices exampleFlow 0 exampleSolver 0 exampleCell0
      exampleLocals0 exampleInput0 rfl example_code example_mem0 example_cell0 example_pre0
      example_solve0⟩

/-- C5 on the concrete run: the species component of point 0, whose solve succeeds. -/
theorem species_source_value_witness :
    (exampleFlow.time = 0
      ∧ (ChemistryFlowPreStage exampleServices exampleFlow 0 exampleSolver).1 = 0
      ∧ 0 ∈ cellRange exampleFlow
      ∧ exampleFlow.flowArray (cellOf exampleFlow.cells 0) = some exampleCell0
      ∧ preSolve exampleServices exampleFlow.dim exampleFlow.time exampleFlow.dt exampleCell0
          exampleSolver = .ok (exampleLocals0, exampleInput0)
      ∧ (exampleServices.TSSolve exampleInput0.ts exampleInput0.thermoPres
          exampleInput0.pointData).1 = 0)
    ∧ (ChemistryFlowPreStage exampleServices exampleFlow 0 exampleSolver).2.sourceVec 0
        (RHOU + 1 + 0)
      = (exampleCell0.euler RHO
            * min 1 (max ((exampleServices.TSSolve exampleInput0.ts exampleInput0.thermoPres
                exampleInput0.pointData).2.2 (Fin.succ 0)) 0)
          - exampleCell0.densityYi 0) / exampleFlow.dt :=
  ⟨⟨rfl, example_code, example_mem0, example_cell0, example_pre0, example_solve0⟩,
    species_source_value exampleServices exampleFlow 0 exampleSolver 0 exampleCell0
      exampleLocals0 exampleInput0 0 rfl example_code example_mem0 example_cell0 example_pre0
      example_solve0⟩

/-- C6 on the concrete run: the density and momentum components of point 0. -/
theorem density_momentum_source_zero_witness :
    (exampleFlow.time = 0
      ∧ (ChemistryFlowPreStage exampleServices exampleFlow 0 exampleSolver).1 = 0
      ∧ 0 ∈ cellRange exampleFlow
      ∧ exampleFlow.flowArray (cellOf exampleFlow.cells 0) = some exampleCell0
      ∧ preSolve exampleServices exampleFlow.dim exampleFlow.time exampleFlow.dt exampleCell0
          exampleSolver = .ok (exampleLocals0, exampleInput0)
      ∧ (exampleServices.TSSolve exampleInput0.ts exampleInput0.thermoPres
          exampleInput0.pointData).1 = 0)
    ∧ ((ChemistryFlowPreStage exampleServices exampleFlow 0 exampleSolver).2.sourceVec 0 RHO = 0
      ∧ ∀ d, d < 1 →
          (ChemistryFlowPreStage exampleServices exampleFlow 0 exampleSolver).2.sourceVec 0
            (RHOU + d) = 0) :=
  ⟨⟨rfl, example_code, example_mem0, example_cell0, example_pre0, example_solve0⟩,
    density_momentum_source_zero exampleServices exampleFlow 0 exampleSolver 0 exampleCell0
      exampleLocals0 exampleInput0 rfl example_code example_mem0 example_cell0 example_pre0
      example_solve0⟩

/-- C7 at three raw values: 1/4 is kept, -1/2 becomes 0 and 3/2 becomes 1. -/
theorem clamped_mass_fraction_bounds_witness :
    PetscMin 1 (PetscMax (1 / 4) 0) = 1 / 4
      ∧ PetscMin 1 (PetscMax (-1 / 2) 0) = 0
      ∧ PetscMin 1 (PetscMax (3 / 2) 0) = 1 :=
  ⟨(clamped_mass_fraction_bounds (1 / 4)).2.2.1 (by norm_num) (by norm_num),
    (clamped_mass_fraction_bounds (-1 / 2)).2.2.2.1 (by norm_num),
    (clamped_mass_fraction_bounds (3 / 2)).2.2.2.2.1 (by norm_num)⟩

/-- C8 on the concrete run: started with a source field of zeros instead of the stale value 7,
the stage leaves the same component 1 in the block of point 0 (solve succeeded) and the same
component 3 in the block of point 1 (solve failed). -/
theorem source_block_fully_overwritten_witness :
    exampleFlow.time = 0
      ∧ (ChemistryFlowPreStage exampleServices exampleFlow 0 exampleSolver).1 = 0
      ∧ (ChemistryFlowPreStage exampleServices exampleFlow 0
          { exampleSolver with sourceVec := fun _ _ => 0 }).1 = 0
      ∧ (ChemistryFlowPreStage exampleServices exampleFlow 0 exampleSolver).2.sourceVec 0 1
          = (ChemistryFlowPreStage exampleServices exampleFlow 0
              { exampleSolver with sourceVec := fun _ _ => 0 }).2.sourceVec 0 1
      ∧ (ChemistryFlowPreStage exampleServices exampleFlow 0 exampleSolver).2.sourceVec 1 3
          = (ChemistryFlowPreStage exampleServices exampleFlow 0
              { exampleSolver with sourceVec := fun _ _ => 0 }).2.sourceVec 1 3 :=
  ⟨rfl,
    (source_block_fully_overwritten exampleServices exampleFlow 0 exampleSolver (fun _ _ => 0) rfl
      example_propertyCalls).1,
    (source_block_fully_overwritten exampleServices exampleFlow 0 exampleSolver (fun _ _ => 0) rfl
      example_propertyCalls).2.1,
    (source_block_fully_overwritten exampleServices exampleFlow 0 exampleSolver (fun _ _ => 0) rfl
      example_propertyCalls).2.2 0 example_mem0 exampleCell0 example_cell0 1 (by decide),
    (source_block_fully_overwritten exampleServices exampleFlow 0 exampleSolver (fun _ _ => 0) rfl
      example_propertyCalls).2.2 1 example_mem1 exampleCell1 example_cell1 3 (by decide)⟩

/-- C9 on the concrete run: at stage time 1, while the flow time is 0, nothing happens. -/
theorem stage_skipped_off_first_stage_witness :
    (1 : ℚ) ≠ exampleFlow.time
      ∧ (ChemistryFlowPreStage exampleServices exampleFlow 1 exampleSolver).1 = 0
      ∧ (ChemistryFlowPreStage exampleServices exampleFlow 1 exampleSolver).2.solveCalls = 0
      ∧ (ChemistryFlowPreStage exampleServices exampleFlow 1 exampleSolver).2.sourceVec 0 1 = 7 :=
  ⟨by norm_num [exampleFlow],
    (stage_skipped_off_first_stage exampleServices exampleFlow 1 exampleSolver
      (by norm_num [exampleFlow])).1,
    (stage_skipped_off_first_stage exampleServices exampleFlow 1 exampleSolver
      (by norm_num [exampleFlow])).2.1,
    (stage_skipped_off_first_stage exampleServices exampleFlow 1 exampleSolver
      (by norm_num [exampleFlow])).2.2.1 0 1⟩

/-- C10 on the concrete run: four components are added to the residual blocks of points 0 and
1, point 2 is a ghost point. -/
theorem add_source_is_pure_accumulation_witness :
    ((List.range' 0 (3 - 0)).map (cellOf none)).Nodup
      ∧ (AddChemistrySourceToFlow 4 0 3 none exampleResidual exampleSolver).1 = 0
      ∧ (∃ rhs', (AddChemistrySourceToFlow 4 0 3 none exampleResidual exampleSolver).2.1 1
              = some rhs'
          ∧ (∀ d, d < 4 → rhs' d = (fun _ => (1 : ℚ)) d + exampleSolver.sourceVec 1 d)
          ∧ (∀ d, 4 ≤ d → rhs' d = (fun _ => (1 : ℚ)) d))
      ∧ (AddChemistrySourceToFlow 4 0 3 none exampleResidual exampleSolver).2.1 2 = none
      ∧ (AddChemistrySourceToFlow 4 0 3 none exampleResidual exampleSolver).2.2 = exampleSolver :=
  ⟨by decide,
    (add_source_is_pure_accumulation 4 0 3 none exampleResidual exampleSolver (by decide)).1,
    (add_source_is_pure_accumulation 4 0 3 none exampleResidual exampleSolver (by decide)).2.1 1
      (by decide) (fun _ => 1) rfl,
    (add_source_is_pure_accumulation 4 0 3 none exampleResidual exampleSolver (by decide)).2.2.1 2
      rfl,
    (add_source_is_pure_accumulation 4 0 3 none exampleResidual exampleSolver
      (by decide)).2.2.2.2.1⟩

/-! ## Clamping, the state at the solve and the source of a successful cell -/

theorem clamp_before_bounds (x : ℚ) :
    0 ≤ PetscMin (PetscMax 0 x) 1 ∧ PetscMin (PetscMax 0 x) 1 ≤ 1 := by
  unfold PetscMin PetscMax
  constructor <;> split_ifs <;> linarith

theorem clamp_before_of_mem (x : ℚ) (h0 : 0 ≤ x) (h1 : x ≤ 1) :
    PetscMin (PetscMax 0 x) 1 = x := by
  unfold PetscMin PetscMax
  split_ifs <;> linarith

theorem clamp_after_bounds (x : ℚ) :
    0 ≤ PetscMin 1 (PetscMax x 0) ∧ PetscMin 1 (PetscMax x 0) ≤ 1 := by
  unfold PetscMin PetscMax
  constructor <;> split_ifs <;> linarith

theorem clamp_after_of_mem (x : ℚ) (h0 : 0 ≤ x) (h1 : x ≤ 1) :
    PetscMin 1 (PetscMax x 0) = x := by
  unfold PetscMin PetscMax
  split_ifs <;> linarith

/-- The composition handed to `TC_getMs2Wmix` is the clamped input composition. -/
theorem loadPointArray_composition (n : Nat) (temperature : ℚ) (cf : CellFields)
    (pointArray : Fin (n + 1) → ℚ) :
    (fun s : Fin n => loadPointArray n temperature cf pointArray s.succ)
      = fun s : Fin n => min (max 0 (cf.densityYi s.val / cf.euler RHO)) 1 := by
  funext s
  rw [loadPointArray_succ, PetscMin_eq_min, PetscMax_eq_max]

theorem solveAndStore_thermoPres {n : Nat} (sv : Services n) (dim : Nat) (dt : ℚ) (cell : Nat)
    (cf : CellFields) (loc : Locals) (st : Solver n) :
    (solveAndStore sv dim dt cell cf loc st).2.thermoPres = st.thermoPres := by
  unfold solveAndStore
  simp only []
  split_ifs <;> rfl

/-- The energy component of a successful cell in terms of the two formation enthalpies. -/
theorem stage_energy_source {n : Nat} (sv : Services n) (fl : FlowData)
    (stagetime : ℚ) (st : Solver n) (c : Nat) (cf : CellFields) (loc : Locals) (st1 : Solver n)
    (htime : fl.time = stagetime) (hret : (ChemistryFlowPreStage sv fl stagetime st).1 = 0)
    (hc : c ∈ cellRange fl) (hcf : fl.flowArray (cellOf fl.cells c) = some cf)
    (hpre : preSolve sv fl.dim fl.time fl.dt cf st = .ok (loc, st1))
    (hsolve : (sv.TSSolve st1.ts st1.thermoPres st1.pointData).1 = 0) :
    (ChemistryFlowPreStage sv fl stagetime st).2.sourceVec (cellOf fl.cells c) RHOE
      = (cf.euler RHO
            * (((sv.ComputeEnthalpyOfFormation st1.pointData).2 + cf.euler RHOE / cf.euler RHO)
                - (sv.ComputeEnthalpyOfFormation
                    (sv.TSSolve st1.ts st1.thermoPres st1.pointData).2.2).2)
          - cf.euler RHOE) / fl.dt := by
  obtain ⟨_, _, _, _, _, _, _, _, hhof, hener⟩ :=
    preSolve_ok sv fl.dim fl.time fl.dt cf st loc st1 hpre
  have h1 : RHOE = 1 := rfl
  have h2 : RHOU = 2 := rfl
  rw [stage_block_of_success sv fl stagetime st c cf loc st1 htime hret hc hcf hpre hsolve RHOE
    (by omega), writeSource_RHOE, hener, hhof]
  rfl

/-- The species component of a successful cell. -/
theorem stage_species_source {n : Nat} (sv : Services n) (fl : FlowData)
    (stagetime : ℚ) (st : Solver n) (c : Nat) (cf : CellFields) (loc : Locals) (st1 : Solver n)
    (sp : Fin n)
    (htime : fl.time = stagetime) (hret : (ChemistryFlowPreStage sv fl stagetime st).1 = 0)
    (hc : c ∈ cellRange fl) (hcf : fl.flowArray (cellOf fl.cells c) = some cf)
    (hpre : preSolve sv fl.dim fl.time fl.dt cf st = .ok (loc, st1))
    (hsolve : (sv.TSSolve st1.ts st1.thermoPres st1.pointData).1 = 0) :
    (ChemistryFlowPreStage sv fl stagetime st).2.sourceVec (cellOf fl.cells c)
        (RHOU + fl.dim + sp.val)
      = (cf.euler RHO
            * PetscMin 1 (PetscMax ((sv.TSSolve st1.ts st1.thermoPres st1.pointData).2.2 sp.succ) 0)
          - cf.densityYi sp.val) / fl.dt := by
  have := sp.isLt
  rw [stage_block_of_success sv fl stagetime st c cf loc st1 htime hret hc hcf hpre hsolve _
    (by omega), writeSource_species]

/-- The density and momentum components of a successful cell. -/
theorem stage_density_momentum_source {n : Nat} (sv : Services n) (fl : FlowData)
    (stagetime : ℚ) (st : Solver n) (c : Nat) (cf : CellFields) (loc : Locals) (st1 : Solver n)
    (htime : fl.time = stagetime) (hret : (ChemistryFlowPreStage sv fl stagetime st).1 = 0)
    (hc : c ∈ cellRange fl) (hcf : fl.flowArray (cellOf fl.cells c) = some cf)
    (hpre : preSolve sv fl.dim fl.time fl.dt cf st = .ok (loc, st1))
    (hsolve : (sv.TSSolve st1.ts st1.thermoPres st1.pointData).1 = 0) :
    (ChemistryFlowPreStage sv fl stagetime st).2.sourceVec (cellOf fl.cells c) RHO = 0
      ∧ ∀ d, d < fl.dim →
          (ChemistryFlowPreStage sv fl stagetime st).2.sourceVec (cellOf fl.cells c) (RHOU + d)
            = 0 := by
  have h0 : RHO = 0 := rfl
  have h2 : RHOU = 2 := rfl
  refine ⟨?_, fun d hd => ?_⟩
  · rw [stage_block_of_success sv fl stagetime st c cf loc st1 htime hret hc hcf hpre hsolve RHO
      (by omega), writeSource_RHO]
  · rw [stage_block_of_success sv fl stagetime st c cf loc st1 htime hret hc hcf hpre hsolve _
      (by omega), writeSource_RHOU _ _ _ _ _ _ _ d hd]

/-! ## Claims about the species update, the no-op path and the state at the solve -/

/-- C13: when `ChemistryFlowPreStage` runs its cell loop and returns 0, for a visited real cell
whose solve succeeded, with `density >= 0`, `densityYi[sp] >= 0`, `dt > 0` and every step `h`
with `0 <= h <= dt`, the explicit-Euler update `densityYi[sp] + h * speciesSource[sp]` is
non-negative, and at `h = dt` it is `density * clamp(Y_sp, 0, 1)`. -/
theorem species_density_stays_nonnegative {n : Nat} (sv : Services n) (fl : FlowData)
    (stagetime : ℚ) (st : Solver n) (c : Nat) (cf : CellFields) (loc : Locals) (st1 : Solver n)
    (sp : Fin n) (h : ℚ)
    (htime : fl.time = stagetime) (hret : (ChemistryFlowPreStage sv fl stagetime st).1 = 0)
    (hc : c ∈ cellRange fl) (hcf : fl.flowArray (cellOf fl.cells c) = some cf)
    (hpre : preSolve sv fl.dim fl.time fl.dt cf st = .ok (loc, st1))
    (hsolve : (sv.TSSolve st1.ts st1.thermoPres st1.pointData).1 = 0)
    (hrho : 0 ≤ cf.euler RHO) (hyi : 0 ≤ cf.densityYi sp.val) (hdt : 0 < fl.dt)
    (hh0 : 0 ≤ h) (hh1 : h ≤ fl.dt) :
    0 ≤ cf.densityYi sp.val
          + h * (ChemistryFlowPreStage sv fl stagetime st).2.sourceVec (cellOf fl.cells c)
              (RHOU + fl.dim + sp.val)
      ∧ cf.densityYi sp.val
          + fl.dt * (ChemistryFlowPreStage sv fl stagetime st).2.sourceVec (cellOf fl.cells c)
              (RHOU + fl.dim + sp.val)
        = cf.euler RHO
            * min 1 (max ((sv.TSSolve st1.ts st1.thermoPres st1.pointData).2.2 sp.succ) 0) := by
  rw [stage_species_source sv fl stagetime st c cf loc st1 sp htime hret hc hcf hpre hsolve,
    ← PetscMin_eq_min, ← PetscMax_eq_max]
  obtain ⟨hc0, _⟩ :=
    clamp_after_bounds ((sv.TSSolve st1.ts st1.thermoPres st1.pointData).2.2 sp.succ)
  generalize PetscMin 1 (PetscMax ((sv.TSSolve st1.ts st1.thermoPres st1.pointData).2.2 sp.succ) 0)
    = m at hc0 ⊢
  have hne : fl.dt ≠ 0 := ne_of_gt hdt
  constructor
  · have hkey : cf.densityYi sp.val + h * ((cf.euler RHO * m - cf.densityYi sp.val) / fl.dt)
        = ((fl.dt - h) * cf.densityYi sp.val + h * (cf.euler RHO * m)) / fl.dt := by
      field_simp
      ring
    rw [hkey]
    apply div_nonneg _ (le_of_lt hdt)
    have h1 : 0 ≤ (fl.dt - h) * cf.densityYi sp.val := mul_nonneg (by linarith) hyi
    have h2 : 0 ≤ h * (cf.euler RHO * m) := mul_nonneg hh0 (mul_nonneg hrho hc0)
    linarith
  · field_simp

/-- C14: the no-op path.  When `ChemistryFlowPreStage` runs its cell loop and returns 0, for a
visited real cell with `density > 0` and every input mass fraction `densityYi[s] / density` in
`[0, 1]`, whose solve succeeds and leaves the point state unchanged, the energy source and every
species source are 0, and so are the density and momentum sources.  (In the model a division by
`dt = 0` yields 0, so `dt != 0` is not needed.) -/
theorem unchanged_point_state_gives_zero_source {n : Nat} (sv : Services n) (fl : FlowData)
    (stagetime : ℚ) (st : Solver n) (c : Nat) (cf : CellFields) (loc : Locals) (st1 : Solver n)
    (htime : fl.time = stagetime) (hret : (ChemistryFlowPreStage sv fl stagetime st).1 = 0)
    (hc : c ∈ cellRange fl) (hcf : fl.flowArray (cellOf fl.cells c) = some cf)
    (hpre : preSolve sv fl.dim fl.time fl.dt cf st = .ok (loc, st1))
    (hsolve : (sv.TSSolve st1.ts st1.thermoPres st1.pointData).1 = 0)
    (hsame : (sv.TSSolve st1.ts st1.thermoPres st1.pointData).2.2 = st1.pointData)
    (hrho : 0 < cf.euler RHO)
    (hfrac : ∀ s : Fin n, 0 ≤ cf.densityYi s.val / cf.euler RHO
      ∧ cf.densityYi s.val / cf.euler RHO ≤ 1) :
    (ChemistryFlowPreStage sv fl stagetime st).2.sourceVec (cellOf fl.cells c) RHOE = 0
      ∧ (∀ sp : Fin n,
          (ChemistryFlowPreStage sv fl stagetime st).2.sourceVec (cellOf fl.cells c)
            (RHOU + fl.dim + sp.val) = 0)
      ∧ (ChemistryFlowPreStage sv fl stagetime st).2.sourceVec (cellOf fl.cells c) RHO = 0
      ∧ ∀ d, d < fl.dim →
          (ChemistryFlowPreStage sv fl stagetime st).2.sourceVec (cellOf fl.cells c) (RHOU + d)
            = 0 := by
  have hne : cf.euler RHO ≠ 0 := ne_of_gt hrho
  obtain ⟨_, _, _, _, hpd, _⟩ := preSolve_ok sv fl.dim fl.time fl.dt cf st loc st1 hpre
  refine ⟨?_, fun sp => ?_,
    stage_density_momentum_source sv fl stagetime st c cf loc st1 htime hret hc hcf hpre hsolve⟩
  · rw [stage_energy_source sv fl stagetime st c cf loc st1 htime hret hc hcf hpre hsolve, hsame]
    have : cf.euler RHO
        * ((sv.ComputeEnthalpyOfFormation st1.pointData).2 + cf.euler RHOE / cf.euler RHO
            - (sv.ComputeEnthalpyOfFormation st1.pointData).2) - cf.euler RHOE = 0 := by
      field_simp
      ring
    rw [this, zero_div]
  · rw [stage_species_source sv fl stagetime st c cf loc st1 sp htime hret hc hcf hpre hsolve,
      hsame, hpd, loadPointArray_succ,
      clamp_before_of_mem _ (hfrac sp).1 (hfrac sp).2,
      clamp_after_of_mem _ (hfrac sp).1 (hfrac sp).2]
    have : cf.euler RHO * (cf.densityYi sp.val / cf.euler RHO) - cf.densityYi sp.val = 0 := by
      field_simp
    rw [this, zero_div]

/-- C20: when `ChemistryFlowPreStage` runs its cell loop and returns 0, for a visited real cell
with `density != 0` and `dt != 0` whose solve succeeded, the energy source is
`density * (hof_before - hof_after) / dt`, with the formation enthalpies of the pre- and
post-integration point states: the total energy density does not occur in it, the energy it
adds over the step is `density * (hof_before - hof_after)`, and it is 0 when the two formation
enthalpies are equal. -/
theorem energy_source_is_formation_enthalpy_drop {n : Nat} (sv : Services n) (fl : FlowData)
    (stagetime : ℚ) (st : Solver n) (c : Nat) (cf : CellFields) (loc : Locals) (st1 : Solver n)
    (htime : fl.time = stagetime) (hret : (ChemistryFlowPreStage sv fl stagetime st).1 = 0)
    (hc : c ∈ cellRange fl) (hcf : fl.flowArray (cellOf fl.cells c) = some cf)
    (hpre : preSolve sv fl.dim fl.time fl.dt cf st = .ok (loc, st1))
    (hsolve : (sv.TSSolve st1.ts st1.thermoPres st1.pointData).1 = 0)
    (hrho : cf.euler RHO ≠ 0) (hdt : fl.dt ≠ 0) :
    (ChemistryFlowPreStage sv fl stagetime st).2.sourceVec (cellOf fl.cells c) RHOE
        = cf.euler RHO
            * ((sv.ComputeEnthalpyOfFormation st1.pointData).2
                - (sv.ComputeEnthalpyOfFormation
                    (sv.TSSolve st1.ts st1.thermoPres st1.pointData).2.2).2) / fl.dt
      ∧ fl.dt * (ChemistryFlowPreStage sv fl stagetime st).2.sourceVec (cellOf fl.cells c) RHOE
        = cf.euler RHO
            * ((sv.ComputeEnthalpyOfFormation st1.pointData).2
                - (sv.ComputeEnthalpyOfFormation
                    (sv.TSSolve st1.ts st1.thermoPres st1.pointData).2.2).2)
      ∧ ((sv.ComputeEnthalpyOfFormation st1.pointData).2
            = (sv.ComputeEnthalpyOfFormation
                (sv.TSSolve st1.ts st1.thermoPres st1.pointData).2.2).2 →
          (ChemistryFlowPreStage sv fl stagetime st).2.sourceVec (cellOf fl.cells c) RHOE = 0) := by
  rw [stage_energy_source sv fl stagetime st c cf loc st1 htime hret hc hcf hpre hsolve]
  refine ⟨?_, ?_, fun heq => ?_⟩
  · field_simp
    ring
  · field_simp
    ring
  · rw [heq]
    field_simp
    ring

/-- C15: for a real cell whose calls before the solve succeed, from whatever state the loop
body starts, the point state handed to `TSSolve` has entry 0 equal to the temperature returned
by the property service and, for every `s < numberSpecies`, entry `s + 1` equal to
`clamp(densityYi[s] / density, 0, 1)`, which lies in `[0, 1]`; every entry is overwritten: had
the point vector held any other values `q` before, the body would hand over the same state. -/
theorem point_state_handed_to_integrator {n : Nat} (sv : Services n) (dim : Nat) (time dt : ℚ)
    (cf : CellFields) (st : Solver n) (loc : Locals) (st1 : Solver n)
    (hpre : preSolve sv dim time dt cf st = .ok (loc, st1)) :
    st1.pointData 0
        = (sv.temperatureFunction dim (cf.euler RHO) (cf.euler RHOE / cf.euler RHO)
            (fun i => cf.euler (RHOU + i)) cf.densityYi).2
      ∧ (∀ s : Fin n,
          st1.pointData s.succ = min (max 0 (cf.densityYi s.val / cf.euler RHO)) 1
            ∧ 0 ≤ st1.pointData s.succ ∧ st1.pointData s.succ ≤ 1)
      ∧ ∀ q : Fin (n + 1) → ℚ, ∃ st1',
          preSolve sv dim time dt cf { st with pointData := q } = .ok (loc, st1')
            ∧ st1'.pointData = st1.pointData := by
  obtain ⟨_, _, _, _, hpd, htemp, _⟩ := preSolve_ok sv dim time dt cf st loc st1 hpre
  refine ⟨?_, fun s => ?_, fun q => ?_⟩
  · rw [hpd, loadPointArray_zero, htemp]
  · rw [hpd, loadPointArray_succ]
    refine ⟨?_, (clamp_before_bounds _).1, (clamp_before_bounds _).2⟩
    rw [PetscMin_eq_min, PetscMax_eq_max]
  · obtain ⟨st1', h1, _, h2, _⟩ :=
      (preSolve_congr sv dim time dt cf st { st with pointData := q } rfl).1 loc st1 hpre
    exact ⟨st1', h1, h2⟩

/-- C16: for a real cell whose temperature and mixture molar mass calls succeed, from whatever
state the loop body starts, the working pressure is `density * temperature * R` with
`R = 1000 * RUNIV / mwMix`, where `temperature` is the reconstructed temperature and `mwMix` the
mixture molar mass of the clamped input composition; this is the pressure in force at the solve
and still the pressure when the processing of the cell ends, however it ends. -/
theorem working_pressure_fixed_before_solve {n : Nat} (sv : Services n) (dim : Nat)
    (time dt : ℚ) (cell : Nat) (cf : CellFields) (st : Solver n)
    (htemp : (sv.temperatureFunction dim (cf.euler RHO) (cf.euler RHOE / cf.euler RHO)
      (fun i => cf.euler (RHOU + i)) cf.densityYi).1 = 0)
    (hmw : (sv.TC_getMs2Wmix
      (fun s : Fin n => min (max 0 (cf.densityYi s.val / cf.euler RHO)) 1)).1 = 0) :
    (∀ loc st1, preSolve sv dim time dt cf st = .ok (loc, st1) →
        st1.thermoPres
          = cf.euler RHO
              * (sv.temperatureFunction dim (cf.euler RHO) (cf.euler RHOE / cf.euler RHO)
                  (fun i => cf.euler (RHOU + i)) cf.densityYi).2
              * (1000 * sv.RUNIV / (sv.TC_getMs2Wmix
                  (fun s : Fin n => min (max 0 (cf.densityYi s.val / cf.euler RHO)) 1)).2))
      ∧ (processCell sv dim time dt cell cf st).2.thermoPres
          = cf.euler RHO
              * (sv.temperatureFunction dim (cf.euler RHO) (cf.euler RHOE / cf.euler RHO)
                  (fun i => cf.euler (RHOU + i)) cf.densityYi).2
              * (1000 * sv.RUNIV / (sv.TC_getMs2Wmix
                  (fun s : Fin n => min (max 0 (cf.densityYi s.val / cf.euler RHO)) 1)).2) := by
  have hok : ∀ loc st1, preSolve sv dim time dt cf st = .ok (loc, st1) →
      st1.thermoPres
        = cf.euler RHO
            * (sv.temperatureFunction dim (cf.euler RHO) (cf.euler RHOE / cf.euler RHO)
                (fun i => cf.euler (RHOU + i)) cf.densityYi).2
            * (1000 * sv.RUNIV / (sv.TC_getMs2Wmix
                (fun s : Fin n => min (max 0 (cf.densityYi s.val / cf.euler RHO)) 1)).2) := by
    intro loc st1 h
    obtain ⟨_, _, _, _, hpd, ht, hp, htp, _⟩ := preSolve_ok sv dim time dt cf st loc st1 h
    rw [htp, hp, hpd, loadPointArray_composition, ht]
  refine ⟨hok, ?_⟩
  unfold processCell
  cases h : preSolve sv dim time dt cf st with
  | error e =>
    simp only []
    unfold preSolve at h
    simp only [] at h
    rw [loadPointArray_composition] at h
    rw [if_neg (not_not.mpr htemp), if_neg (not_not.mpr hmw)] at h
    split_ifs at h with h3
    cases h
    rfl
  | ok r =>
    obtain ⟨loc, st1⟩ := r
    simp only []
    rw [solveAndStore_thermoPres]
    exact hok loc st1 h

/-- C17: the soft reset.  Whatever cells `visited` the loop has processed before, and whatever
their solves left in the integrator context, at the solve of the next real cell the context
holds the flow time as time, `time + dt` as maximum time, the stored `dtInit` as time step and 0
as step number: the settings depend on `time`, `dt` and `dtInit` only. -/
theorem soft_reset_before_every_solve {n : Nat} (sv : Services n) (fl : FlowData)
    (st : Solver n) (visited : List Nat) (cf : CellFields) (loc : Locals) (st1 : Solver n)
    (hpre : preSolve sv fl.dim fl.time fl.dt cf (marchCells sv fl visited st).2
      = .ok (loc, st1)) :
    st1.ts.time = fl.time ∧ st1.ts.maxTime = fl.time + fl.dt ∧ st1.ts.timeStep = st.dtInit
      ∧ st1.ts.stepNumber = 0 := by
  obtain ⟨_, _, _, hts, _⟩ := preSolve_ok sv fl.dim fl.time fl.dt cf _ loc st1 hpre
  rw [hts, marchCells_dtInit]
  exact ⟨rfl, rfl, rfl, rfl⟩

/-! ## Claims about `Initialize`, the constructor and the Jacobian -/

theorem addSource_zero (totDim : Nat) (source rhs : Nat → ℚ) (hzero : ∀ d, source d = 0) :
    addSource totDim source rhs = rhs := by
  funext d
  rw [addSource_apply, hzero d, add_zero, ite_self]

/-- Adding a source field of zeros changes nothing in the residual. -/
theorem addCells_zero (totDim : Nat) (cells : Option (Nat → Nat))
    (sourceArray : Nat → Nat → ℚ) (hzero : ∀ cell d, sourceArray cell d = 0) (l : List Nat)
    (fArray : Nat → Option (Nat → ℚ)) :
    addCells totDim cells sourceArray l fArray = fArray := by
  induction l generalizing fArray with
  | nil => rfl
  | cons b bs ih =>
    unfold addCells
    cases hb : fArray (cellOf cells b) with
    | none => exact ih fArray
    | some rhs =>
      simp only []
      rw [addSource_zero totDim _ rhs (hzero _), ← hb, Function.update_eq_self]
      exact ih fArray

/-- Stage calls that skip their loop leave the state as it is. -/
theorem runStages_of_skipped {n : Nat} (sv : Services n) (calls : List (FlowData × ℚ))
    (st : Solver n) (hskip : ∀ call ∈ calls, call.2 ≠ call.1.time) :
    runStages sv calls st = st := by
  unfold runStages
  induction calls generalizing st with
  | nil => rfl
  | cons call rest ih =>
    rw [List.foldl_cons]
    have h1 : (ChemistryFlowPreStage sv call.1 call.2 st).2 = st := by
      unfold ChemistryFlowPreStage
      rw [if_pos (Ne.symm (hskip call (List.mem_cons_self call rest)))]
    rw [h1]
    exact ih st (fun c hc => hskip c (List.mem_cons_of_mem call hc))

/-- C11: after `Initialize`, and after any calls of `ChemistryFlowPreStage` that did not run
their cell loop (stage time different from the flow time), every entry of the chemistry source
field is 0 and `AddChemistrySourceToFlow` returns 0 and leaves the residual block of every point
exactly as it was. -/
theorem zero_source_before_first_stage {n : Nat} (sv : Services n) (st : Solver n)
    (calls : List (FlowData × ℚ)) (totDim cStart cEnd : Nat) (cells : Option (Nat → Nat))
    (fVec : Nat → Option (Nat → ℚ))
    (hskip : ∀ call ∈ calls, call.2 ≠ call.1.time) :
    (∀ cell k, (runStages sv calls (Initialize st)).sourceVec cell k = 0)
      ∧ (AddChemistrySourceToFlow totDim cStart cEnd cells fVec
          (runStages sv calls (Initialize st))).1 = 0
      ∧ (AddChemistrySourceToFlow totDim cStart cEnd cells fVec
          (runStages sv calls (Initialize st))).2.1 = fVec := by
  rw [runStages_of_skipped sv calls _ hskip]
  refine ⟨fun _ _ => rfl, rfl, ?_⟩
  unfold AddChemistrySourceToFlow
  exact addCells_zero totDim cells _ (fun _ _ => rfl) _ fVec

/-- C12: the constructor throws `std::invalid_argument` whenever the equation of state is not an
`eos::TChem`, having created no resource (no options object, scratch buffer, vector, matrix or
integrator context); when the equation of state is an `eos::TChem` it throws no such exception
and returns the object. -/
theorem constructor_accepts_only_tchem (eosIn : EOS) (options : Bool) (dtInitDefault : ℚ)
    (optionsTimeStep : Option ℚ) :
    (eosIn.isTChem = false →
        ∃ what, construct eosIn options dtInitDefault optionsTimeStep
          = ([], .error (.invalid_argument what)))
      ∧ (eosIn.isTChem = true →
        ∃ obj, (construct eosIn options dtInitDefault optionsTimeStep).2 = .ok obj
          ∧ obj.numberSpecies = eosIn.speciesCount) := by
  unfold construct
  constructor
  · intro h
    rw [if_pos h]
    exact ⟨_, rfl⟩
  · intro h
    rw [if_neg (by rw [h]; decide)]
    exact ⟨_, rfl, rfl⟩

/-- C12 for an equation of state that is not an `eos::TChem` and for one that is. -/
theorem constructor_accepts_only_tchem_witness :
    (∃ what, construct ⟨false, 3⟩ true (1 / 1000) none = ([], .error (.invalid_argument what)))
      ∧ (∃ obj, (construct ⟨true, 3⟩ true (1 / 1000) none).2 = .ok obj
          ∧ obj.numberSpecies = 3) :=
  ⟨(constructor_accepts_only_tchem ⟨false, 3⟩ true (1 / 1000) none).1 rfl,
    (constructor_accepts_only_tchem ⟨true, 3⟩ true (1 / 1000) none).2 rfl⟩

/-- The loop of lines 47-49 always stores to index `numberSpecies`, one past the
`numberSpecies` entries allocated for `rows`. -/
theorem construct_rows_store (eosIn : EOS) (options : Bool) (dtInitDefault : ℚ)
    (optionsTimeStep : Option ℚ) (obj : Constructed)
    (h : (construct eosIn options dtInitDefault optionsTimeStep).2 = .ok obj) :
    obj.rowsEntries = obj.numberSpecies
      ∧ (obj.numberSpecies, obj.numberSpecies) ∈ obj.rowsStores := by
  unfold construct at h
  by_cases hk : eosIn.isTChem = false
  · rw [if_pos hk] at h
    cases h
  · rw [if_neg hk] at h
    have h2 := Except.ok.inj h
    subst h2
    exact ⟨rfl, List.mem_map.mpr ⟨_, List.mem_range.mpr (Nat.lt_succ_self _), rfl⟩⟩

/-- C19 at an `eos::TChem` with one species: one entry is allocated for `rows`, and the loop
stores `rows[1] = 1`, at an index that is not below the number of entries allocated. -/
theorem rows_store_past_allocation :
    ∃ obj, (construct ⟨true, 1⟩ false (1 / 1000) none).2 = .ok obj
      ∧ obj.rowsEntries = 1 ∧ obj.rowsStores = [(0, 0), (1, 1)]
      ∧ ¬ (1 < obj.rowsEntries) :=
  ⟨_, rfl, rfl, rfl, by decide⟩

/-! ## The matrix loaded by `SinglePointChemistryJacobian` -/

theorem update_entry_apply (mat : Nat → Nat → ℚ) (r c : Nat) (x : ℚ) (i j : Nat) :
    Function.update mat r (Function.update (mat r) c x) i j
      = if i = r ∧ j = c then x else mat i j := by
  by_cases hi : i = r
  · subst hi
    rw [Function.update_same]
    by_cases hj : j = c
    · subst hj
      rw [Function.update_same, if_pos ⟨rfl, rfl⟩]
    · rw [Function.update_noteq hj, if_neg (fun h => hj h.2)]
  · rw [Function.update_noteq hi, if_neg (fun h => hi h.1)]

/-- One column of `MatSetValues`: the inner loop over the first `k` rows. -/
theorem MatSetValues_column (ignoreZero : Bool) (m : Nat) (idxm : Nat → Nat) (cj j : Nat)
    (v : Nat → ℚ) (hidx : ∀ i, i < m → idxm i = i) (mat : Nat → Nat → ℚ) (k : Nat) (hk : k ≤ m)
    (i' j' : Nat) :
    ((List.range k).foldl
        (fun mat i =>
          if ignoreZero = true ∧ v (j * m + i) = 0 then mat
          else Function.update mat (idxm i) (Function.update (mat (idxm i)) cj (v (j * m + i))))
        mat) i' j'
      = if j' = cj ∧ i' < k ∧ ¬ (ignoreZero = true ∧ v (j * m + i') = 0) then v (j * m + i')
        else mat i' j' := by
  induction k generalizing i' j' with
  | zero => simp
  | succ k ih =>
    rw [List.range_succ, List.foldl_append, List.foldl_cons, List.foldl_nil]
    have hkm : k < m := hk
    have ih' := fun a b => ih (Nat.le_of_lt hkm) a b
    by_cases hskip : ignoreZero = true ∧ v (j * m + k) = 0
    · rw [if_pos hskip, ih']
      by_cases hi : i' = k
      · subst hi
        rw [if_neg (fun h => Nat.lt_irrefl _ h.2.1), if_neg (fun h => h.2.2 hskip)]
      · have : i' < k + 1 ↔ i' < k := by omega
        simp only [this]
    · rw [if_neg hskip, hidx k hkm, update_entry_apply]
      by_cases hij : i' = k ∧ j' = cj
      · obtain ⟨hi, hj⟩ := hij
        subst hi
        subst hj
        rw [if_pos ⟨rfl, rfl⟩, if_pos ⟨rfl, Nat.lt_succ_self _, hskip⟩]
      · rw [if_neg hij, ih']
        by_cases hj : j' = cj
        · have hi : i' ≠ k := fun h => hij ⟨h, hj⟩
          have : i' < k + 1 ↔ i' < k := by omega
          simp only [this]
        · rw [if_neg (fun h => hj h.1), if_neg (fun h => hj h.1)]

/-- The first `k` columns of `MatSetValues` with identity index arrays. -/
theorem MatSetValues_columns (ignoreZero : Bool) (m : Nat) (idx : Nat → Nat) (v : Nat → ℚ)
    (hidx : ∀ i, i < m → idx i = i) (mat : Nat → Nat → ℚ) (k : Nat) (hk : k ≤ m)
    (i' j' : Nat) :
    ((List.range k).foldl
        (fun mat j => (List.range m).foldl
          (fun mat i =>
            if ignoreZero = true ∧ v (j * m + i) = 0 then mat
            else Function.update mat (idx i) (Function.update (mat (idx i)) (idx j) (v (j * m + i))))
          mat)
        mat) i' j'
      = if j' < k ∧ i' < m ∧ ¬ (ignoreZero = true ∧ v (j' * m + i') = 0) then v (j' * m + i')
        else mat i' j' := by
  induction k generalizing i' j' with
  | zero => simp
  | succ k ih =>
    rw [List.range_succ, List.foldl_append, List.foldl_cons, List.foldl_nil]
    have hkm : k < m := hk
    rw [MatSetValues_column ignoreZero m idx (idx k) k v hidx _ m (Nat.le_refl m), hidx k hkm,
      ih (Nat.le_of_lt hkm)]
    by_cases hj : j' = k
    · subst hj
      by_cases hc : i' < m ∧ ¬ (ignoreZero = true ∧ v (j' * m + i') = 0)
      · rw [if_pos ⟨rfl, hc⟩, if_pos ⟨Nat.lt_succ_self _, hc⟩]
      · rw [if_neg (fun h => hc h.2), if_neg (fun h => Nat.lt_irrefl _ h.1),
          if_neg (fun h => hc h.2)]
    · rw [if_neg (fun h => hj h.1)]
      have : j' < k + 1 ↔ j' < k := by omega
      simp only [this]

theorem MatSetValues_apply (ignoreZero : Bool) (m : Nat) (idx : Nat → Nat) (v : Nat → ℚ)
    (hidx : ∀ i, i < m → idx i = i) (i j : Nat) (hi : i < m) (hj : j < m) :
    MatSetValues ignoreZero m idx m idx v (fun _ _ => 0) i j = v (j * m + i) := by
  unfold MatSetValues
  rw [MatSetValues_columns ignoreZero m idx v hidx _ m (Nat.le_refl m)]
  by_cases hskip : ignoreZero = true ∧ v (j * m + i) = 0
  · rw [if_neg (fun h => h.2.2 hskip), hskip.2]
  · rw [if_pos ⟨hj, hi, hskip⟩]

theorem constructedRows_apply (n : Nat) (memory : Nat → Nat) (i : Nat) (hi : i ≤ n) :
    constructedRows n memory i = i := by
  unfold constructedRows
  exact foldl_update_of_exists (fun k : Nat => k) (fun k : Nat => k) i i _ _
    ⟨i, List.mem_range.mpr (Nat.lt_succ_of_le hi), rfl⟩ (fun _ _ h => h)

/-- The stores recorded by the constructor are the stores of `constructedRows`. -/
theorem construct_rows_are_constructedRows (eosIn : EOS) (options : Bool) (dtInitDefault : ℚ)
    (optionsTimeStep : Option ℚ) (obj : Constructed) (memory : Nat → Nat)
    (h : (construct eosIn options dtInitDefault optionsTimeStep).2 = .ok obj) :
    obj.rowsStores.foldl (fun rows store => Function.update rows store.1 store.2) memory
      = constructedRows obj.numberSpecies memory := by
  unfold construct at h
  by_cases hk : eosIn.isTChem = false
  · rw [if_pos hk] at h
    cases h
  · rw [if_neg hk] at h
    have h2 := Except.ok.inj h
    subst h2
    unfold constructedRows
    rw [List.foldl_map]

/-- C18, amended: on an object whose `rows` are as the constructor leaves them, after every call
of `SinglePointChemistryJacobian` in which `TC_getJacTYN` returns 0 the call returns 0 and
`pMat` holds exactly the `(numberSpecies + 1) x (numberSpecies + 1)` values that `TC_getJacTYN`
left in `jacobianScratch` for the current state, read in column-major order (entry `(i, j)` is
`jacobianScratch[j * (numberSpecies + 1) + i]`), and the matrix is the same whatever `pMat` held
before the call; every call in which `TC_getJacTYN` returns a non-zero code returns that code
and leaves `pMat` as it was. -/
theorem jacobian_matrix_reloaded {n : Nat}
    (TC_getJacTYN : (Fin (n + 1) → ℚ) → (Nat → ℚ) → Int × (Nat → ℚ)) (ignoreZero : Bool)
    (X : Fin (n + 1) → ℚ) (pMat : Nat → Nat → ℚ) (tchemScratch : Fin (n + 1) → ℚ)
    (jacobianScratch : Nat → ℚ) (memory : Nat → Nat) :
    ((TC_getJacTYN X jacobianScratch).1 = 0 →
        (SinglePointChemistryJacobian TC_getJacTYN ignoreZero X pMat
            ⟨tchemScratch, jacobianScratch, constructedRows n memory⟩).1 = 0
          ∧ (SinglePointChemistryJacobian TC_getJacTYN ignoreZero X pMat
              ⟨tchemScratch, jacobianScratch, constructedRows n memory⟩).2.2.jacobianScratch
            = (TC_getJacTYN X jacobianScratch).2
          ∧ (∀ i j, i ≤ n → j ≤ n →
              (SinglePointChemistryJacobian TC_getJacTYN ignoreZero X pMat
                  ⟨tchemScratch, jacobianScratch, constructedRows n memory⟩).2.1 i j
                = (SinglePointChemistryJacobian TC_getJacTYN ignoreZero X pMat
                    ⟨tchemScratch, jacobianScratch,
                      constructedRows n memory⟩).2.2.jacobianScratch (j * (n + 1) + i))
          ∧ ∀ pMat2 : Nat → Nat → ℚ,
              (SinglePointChemistryJacobian TC_getJacTYN ignoreZero X pMat2
                  ⟨tchemScratch, jacobianScratch, constructedRows n memory⟩).2.1
                = (SinglePointChemistryJacobian TC_getJacTYN ignoreZero X pMat
                    ⟨tchemScratch, jacobianScratch, constructedRows n memory⟩).2.1)
      ∧ ((TC_getJacTYN X jacobianScratch).1 ≠ 0 →
        (SinglePointChemistryJacobian TC_getJacTYN ignoreZero X pMat
            ⟨tchemScratch, jacobianScratch, constructedRows n memory⟩).1
          = (TC_getJacTYN X jacobianScratch).1
          ∧ (SinglePointChemistryJacobian TC_getJacTYN ignoreZero X pMat
              ⟨tchemScratch, jacobianScratch, constructedRows n memory⟩).2.1 = pMat) := by
  constructor
  · intro hcode
    unfold SinglePointChemistryJacobian
    simp only []
    rw [if_neg (not_not.mpr hcode)]
    refine ⟨rfl, rfl, fun i j hi hj => ?_, fun pMat2 => ?_⟩
    · exact MatSetValues_apply ignoreZero (n + 1) (constructedRows n memory) _
        (fun k hk => constructedRows_apply n memory k (Nat.le_of_lt_succ hk)) i j
        (Nat.lt_succ_of_le hi) (Nat.lt_succ_of_le hj)
    · rw [if_neg (not_not.mpr hcode)]
      rfl
  · intro hcode
    unfold SinglePointChemistryJacobian
    simp only []
    rw [if_pos hcode]
    exact ⟨rfl, rfl⟩

/-- C18 on concrete calls for one species, from a matrix holding the stale value 7: a call in
which `TC_getJacTYN` succeeds, and one in which it fails with code 1. -/
theorem jacobian_matrix_reloaded_witness :
    ((exampleJacTYN (fun _ => 300) (fun _ => 0)).1 = 0
      ∧ (failingJacTYN (fun _ => 300) (fun _ => 0)).1 ≠ 0)
    ∧ ((SinglePointChemistryJacobian exampleJacTYN true (fun _ => 300) (fun _ _ => 7)
          exampleWork).1 = 0
      ∧ (SinglePointChemistryJacobian exampleJacTYN true (fun _ => 300) (fun _ _ => 7)
          exampleWork).2.1 1 0
        = (SinglePointChemistryJacobian exampleJacTYN true (fun _ => 300) (fun _ _ => 7)
            exampleWork).2.2.jacobianScratch (0 * (1 + 1) + 1)
      ∧ (SinglePointChemistryJacobian exampleJacTYN true (fun _ => 300) (fun _ _ => 8)
          exampleWork).2.1
        = (SinglePointChemistryJacobian exampleJacTYN true (fun _ => 300) (fun _ _ => 7)
            exampleWork).2.1
      ∧ (SinglePointChemistryJacobian failingJacTYN true (fun _ => 300) (fun _ _ => 7)
          exampleWork).1 = (failingJacTYN (fun _ => 300) (fun _ => 0)).1
      ∧ (SinglePointChemistryJacobian failingJacTYN true (fun _ => 300) (fun _ _ => 7)
          exampleWork).2.1 = fun _ _ => 7) :=
  ⟨⟨rfl, by decide⟩,
    ((jacobian_matrix_reloaded exampleJacTYN true (fun _ => 300) (fun _ _ => 7) (fun _ => 0)
      (fun _ => 0) (fun _ => 0)).1 rfl).1,
    ((jacobian_matrix_reloaded exampleJacTYN true (fun _ => 300) (fun _ _ => 7) (fun _ => 0)
      (fun _ => 0) (fun _ => 0)).1 rfl).2.2.1 1 0 (le_refl 1) (Nat.zero_le 1),
    ((jacobian_matrix_reloaded exampleJacTYN true (fun _ => 300) (fun _ _ => 7) (fun _ => 0)
      (fun _ => 0) (fun _ => 0)).1 rfl).2.2.2 (fun _ _ => 8),
    ((jacobian_matrix_reloaded failingJacTYN true (fun _ => 300) (fun _ _ => 7) (fun _ => 0)
      (fun _ => 0) (fun _ => 0)).2 (by decide)).1,
    ((jacobian_matrix_reloaded failingJacTYN true (fun _ => 300) (fun _ _ => 7) (fun _ => 0)
      (fun _ => 0) (fun _ => 0)).2 (by decide)).2⟩

/-- C18 as stated fails on a call in which `TC_getJacTYN` returns a non-zero code: the call
returns that code before the matrix is zeroed, so entry `(0, 0)` of `pMat` keeps the value 7
(or 8) it held before the call, while `jacobianScratch[0]` is 5. -/
theorem jacobian_call_can_keep_stale_matrix :
    (SinglePointChemistryJacobian failingJacTYN true (fun _ => 300) (fun _ _ => 7)
        exampleWork).1 = 1
      ∧ (SinglePointChemistryJacobian failingJacTYN true (fun _ => 300) (fun _ _ => 7)
          exampleWork).2.1 0 0 = 7
      ∧ (SinglePointChemistryJacobian failingJacTYN true (fun _ => 300) (fun _ _ => 8)
          exampleWork).2.1 0 0 = 8
      ∧ (SinglePointChemistryJacobian failingJacTYN true (fun _ => 300) (fun _ _ => 7)
          exampleWork).2.2.jacobianScratch (0 * (1 + 1) + 0) = 5
      ∧ (SinglePointChemistryJacobian failingJacTYN true (fun _ => 300) (fun _ _ => 7)
          exampleWork).2.1 0 0
        ≠ (SinglePointChemistryJacobian failingJacTYN true (fun _ => 300) (fun _ _ => 7)
            exampleWork).2.2.jacobianScratch (0 * (1 + 1) + 0) := by
  refine ⟨rfl, rfl, rfl, rfl, ?_⟩
  show (7 : ℚ) ≠ 5
  norm_num

/-! ## Facts of the second concrete run -/

theorem inert_pre0 :
    preSolve inertServices exampleFlow.dim exampleFlow.time exampleFlow.dt exampleCell0
      exampleSolver = .ok (exampleLocals0, exampleInput0) := by
  norm_num [preSolve, inertServices, exampleFlow, exampleCell0, exampleSolver, exampleLocals0,
    exampleInput0, RHO, RHOE, RHOU, softReset, loadPointArray_one, PetscMin, PetscMax]

theorem inert_propertyCalls :
    ∀ c ∈ cellRange exampleFlow, ∀ cf,
      exampleFlow.flowArray (cellOf exampleFlow.cells c) = some cf →
        PropertyCallsSucceed inertServices exampleFlow.dim exampleFlow.time exampleFlow.dt cf
          exampleSolver := by
  intro c _ cf _
  simp [PropertyCallsSucceed, preSolve, inertServices]

theorem inert_code :
    (ChemistryFlowPreStage inertServices exampleFlow 0 exampleSolver).1 = 0 :=
  stage_code_of_propertyCalls _ _ _ _ _ rfl rfl inert_propertyCalls

theorem example_fractions :
    ∀ s : Fin 1, 0 ≤ exampleCell0.densityYi s.val / exampleCell0.euler RHO
      ∧ exampleCell0.densityYi s.val / exampleCell0.euler RHO ≤ 1 := by
  intro s
  norm_num [exampleCell0, RHO]

theorem example_after0 :
    (marchCells exampleServices exampleFlow [0] exampleSolver).2.ts = ⟨1, 1, 1 / 10, 1⟩ := by
  simp only [marchCells, example_cell0, processCell, example_pre0, solveAndStore]
  norm_num [exampleServices, exampleInput0, loadPointArray_zero]

theorem example_skipped :
    ∀ call ∈ [(exampleFlow, (1 : ℚ))], call.2 ≠ call.1.time := by
  intro call hcall
  rw [List.mem_singleton] at hcall
  subst hcall
  norm_num [exampleFlow]

/-! ## The claims of the second group on the concrete runs -/

/-- C11 on the concrete run: after `Initialize` and one skipped stage call, the source field is
zero and four components of the residual are left as they were. -/
theorem zero_source_before_first_stage_witness :
    (∀ call ∈ [(exampleFlow, (1 : ℚ))], call.2 ≠ call.1.time)
      ∧ (∀ cell k, (runStages exampleServices [(exampleFlow, 1)]
          (Initialize exampleSolver)).sourceVec cell k = 0)
      ∧ (AddChemistrySourceToFlow 4 0 3 none exampleResidual
          (runStages exampleServices [(exampleFlow, 1)] (Initialize exampleSolver))).1 = 0
      ∧ (AddChemistrySourceToFlow 4 0 3 none exampleResidual
          (runStages exampleServices [(exampleFlow, 1)] (Initialize exampleSolver))).2.1
        = exampleResidual :=
  ⟨example_skipped,
    zero_source_before_first_stage exampleServices exampleSolver [(exampleFlow, 1)] 4 0 3 none
      exampleResidual example_skipped⟩

/-- C13 on the concrete run: species 0 of point 0 with half a step. -/
theorem species_density_stays_nonnegative_witness :
    ((0 : ℚ) ≤ exampleCell0.euler RHO ∧ 0 ≤ exampleCell0.densityYi 0 ∧ 0 < exampleFlow.dt
      ∧ (0 : ℚ) ≤ 1 / 2 ∧ (1 / 2 : ℚ) ≤ exampleFlow.dt)
    ∧ (0 ≤ exampleCell0.densityYi 0
          + 1 / 2 * (ChemistryFlowPreStage exampleServices exampleFlow 0 exampleSolver).2.sourceVec
              0 (RHOU + 1 + 0)
      ∧ exampleCell0.densityYi 0
          + exampleFlow.dt
            * (ChemistryFlowPreStage exampleServices exampleFlow 0 exampleSolver).2.sourceVec 0
                (RHOU + 1 + 0)
        = exampleCell0.euler RHO
            * min 1 (max ((exampleServices.TSSolve exampleInput0.ts exampleInput0.thermoPres
                exampleInput0.pointData).2.2 (Fin.succ 0)) 0)) :=
  ⟨⟨by norm_num [exampleCell0, RHO], by norm_num [exampleCell0], by norm_num [exampleFlow],
      by norm_num, by norm_num [exampleFlow]⟩,
    species_density_stays_nonnegative exampleServices exampleFlow 0 exampleSolver 0 exampleCell0
      exampleLocals0 exampleInput0 0 (1 / 2) rfl example_code example_mem0 example_cell0
      example_pre0 example_solve0 (by norm_num [exampleCell0, RHO])
      (by norm_num [exampleCell0]) (by norm_num [exampleFlow]) (by norm_num)
      (by norm_num [exampleFlow])⟩

/-- C14 on the second concrete run: the integrator leaves the point state of point 0 as it is
and every component of its block is 0. -/
theorem unchanged_point_state_gives_zero_source_witness :
    ((ChemistryFlowPreStage inertServices exampleFlow 0 exampleSolver).1 = 0
      ∧ preSolve inertServices exampleFlow.dim exampleFlow.time exampleFlow.dt exampleCell0
          exampleSolver = .ok (exampleLocals0, exampleInput0)
      ∧ (inertServices.TSSolve exampleInput0.ts exampleInput0.thermoPres
          exampleInput0.pointData).1 = 0
      ∧ (inertServices.TSSolve exampleInput0.ts exampleInput0.thermoPres
          exampleInput0.pointData).2.2 = exampleInput0.pointData
      ∧ 0 < exampleCell0.euler RHO)
    ∧ ((ChemistryFlowPreStage inertServices exampleFlow 0 exampleSolver).2.sourceVec 0 RHOE = 0
      ∧ (∀ sp : Fin 1,
          (ChemistryFlowPreStage inertServices exampleFlow 0 exampleSolver).2.sourceVec 0
            (RHOU + 1 + sp.val) = 0)
      ∧ (ChemistryFlowPreStage inertServices exampleFlow 0 exampleSolver).2.sourceVec 0 RHO = 0
      ∧ ∀ d, d < 1 →
          (ChemistryFlowPreStage inertServices exampleFlow 0 exampleSolver).2.sourceVec 0
            (RHOU + d) = 0) :=
  ⟨⟨inert_code, inert_pre0, rfl, rfl, by norm_num [exampleCell0, RHO]⟩,
    unchanged_point_state_gives_zero_source inertServices exampleFlow 0 exampleSolver 0
      exampleCell0 exampleLocals0 exampleInput0 rfl inert_code example_mem0 example_cell0
      inert_pre0 rfl rfl (by norm_num [exampleCell0, RHO]) example_fractions⟩

/-- C15 on the concrete run: the point state handed over for point 1. -/
theorem point_state_handed_to_integrator_witness :
    preSolve exampleServices exampleFlow.dim exampleFlow.time exampleFlow.dt exampleCell1
        exampleSolver = .ok (exampleLocals1, exampleInput1)
      ∧ exampleInput1.pointData 0
        = (exampleServices.temperatureFunction exampleFlow.dim (exampleCell1.euler RHO)
            (exampleCell1.euler RHOE / exampleCell1.euler RHO)
            (fun i => exampleCell1.euler (RHOU + i)) exampleCell1.densityYi).2
      ∧ exampleInput1.pointData (Fin.succ 0)
        = min (max 0 (exampleCell1.densityYi 0 / exampleCell1.euler RHO)) 1
      ∧ 0 ≤ exampleInput1.pointData (Fin.succ 0)
      ∧ exampleInput1.pointData (Fin.succ 0) ≤ 1
      ∧ ∃ st1', preSolve exampleServices exampleFlow.dim exampleFlow.time exampleFlow.dt
            exampleCell1 { exampleSolver with pointData := fun _ => 9 }
              = .ok (exampleLocals1, st1')
          ∧ st1'.pointData = exampleInput1.pointData :=
  ⟨example_pre1,
    (point_state_handed_to_integrator exampleServices exampleFlow.dim exampleFlow.time
      exampleFlow.dt exampleCell1 exampleSolver exampleLocals1 exampleInput1 example_pre1).1,
    ((point_state_handed_to_integrator exampleServices exampleFlow.dim exampleFlow.time
      exampleFlow.dt exampleCell1 exampleSolver exampleLocals1 exampleInput1
      example_pre1).2.1 0).1,
    ((point_state_handed_to_integrator exampleServices exampleFlow.dim exampleFlow.time
      exampleFlow.dt exampleCell1 exampleSolver exampleLocals1 exampleInput1
      example_pre1).2.1 0).2.1,
    ((point_state_handed_to_integrator exampleServices exampleFlow.dim exampleFlow.time
      exampleFlow.dt exampleCell1 exampleSolver exampleLocals1 exampleInput1
      example_pre1).2.1 0).2.2,
    (point_state_handed_to_integrator exampleServices exampleFlow.dim exampleFlow.time
      exampleFlow.dt exampleCell1 exampleSolver exampleLocals1 exampleInput1
      example_pre1).2.2 (fun _ => 9)⟩

/-- C16 on the concrete run: the working pressure of point 0. -/
theorem working_pressure_fixed_before_solve_witness :
    ((exampleServices.temperatureFunction 1 (exampleCell0.euler RHO)
          (exampleCell0.euler RHOE / exampleCell0.euler RHO)
          (fun i => exampleCell0.euler (RHOU + i)) exampleCell0.densityYi).1 = 0
      ∧ (exampleServices.TC_getMs2Wmix
          (fun s : Fin 1 =>
            min (max 0 (exampleCell0.densityYi s.val / exampleCell0.euler RHO)) 1)).1 = 0)
    ∧ (processCell exampleServices 1 0 1 0 exampleCell0 exampleSolver).2.thermoPres
      = exampleCell0.euler RHO
          * (exampleServices.temperatureFunction 1 (exampleCell0.euler RHO)
              (exampleCell0.euler RHOE / exampleCell0.euler RHO)
              (fun i => exampleCell0.euler (RHOU + i)) exampleCell0.densityYi).2
          * (1000 * exampleServices.RUNIV / (exampleServices.TC_getMs2Wmix
              (fun s : Fin 1 =>
                min (max 0 (exampleCell0.densityYi s.val / exampleCell0.euler RHO)) 1)).2) :=
  ⟨⟨rfl, rfl⟩,
    (working_pressure_fixed_before_solve exampleServices 1 0 1 0 exampleCell0 exampleSolver
      rfl rfl).2⟩

/-- C17 on the concrete run: after point 0 has been processed, whose solve left time 1 and
step number 1 in the integrator context, the context at the solve of point 1 is reset. -/
theorem soft_reset_before_every_solve_witness :
    (marchCells exampleServices exampleFlow [0] exampleSolver).2.ts = ⟨1, 1, 1 / 10, 1⟩
      ∧ ∃ st1, preSolve exampleServices exampleFlow.dim exampleFlow.time exampleFlow.dt
            exampleCell1 (marchCells exampleServices exampleFlow [0] exampleSolver).2
          = .ok (exampleLocals1, st1)
        ∧ st1.ts.time = exampleFlow.time ∧ st1.ts.maxTime = exampleFlow.time + exampleFlow.dt
        ∧ st1.ts.timeStep = exampleSolver.dtInit ∧ st1.ts.stepNumber = 0 := by
  refine ⟨example_after0, ?_⟩
  obtain ⟨st1, h, _⟩ :=
    (preSolve_congr exampleServices exampleFlow.dim exampleFlow.time exampleFlow.dt exampleCell1
      exampleSolver (marchCells exampleServices exampleFlow [0] exampleSolver).2
      (marchCells_dtInit exampleServices exampleFlow [0] exampleSolver).symm).1
      exampleLocals1 exampleInput1 example_pre1
  exact ⟨st1, h,
    soft_reset_before_every_solve exampleServices exampleFlow exampleSolver [0] exampleCell1
      exampleLocals1 st1 h⟩

/-- C20 on the concrete run: the energy source of point 0. -/
theorem energy_source_is_formation_enthalpy_drop_witness :
    (exampleCell0.euler RHO ≠ 0 ∧ exampleFlow.dt ≠ 0)
    ∧ (ChemistryFlowPreStage exampleServices exampleFlow 0 exampleSolver).2.sourceVec 0 RHOE
      = exampleCell0.euler RHO
          * ((exampleServices.ComputeEnthalpyOfFormation exampleInput0.pointData).2
              - (exampleServices.ComputeEnthalpyOfFormation
                  (exampleServices.TSSolve exampleInput0.ts exampleInput0.thermoPres
                    exampleInput0.pointData).2.2).2) / exampleFlow.dt :=
  ⟨⟨by norm_num [exampleCell0, RHO], by norm_num [exampleFlow]⟩,
    (energy_source_is_formation_enthalpy_drop exampleServices exampleFlow 0 exampleSolver 0
      exampleCell0 exampleLocals0 exampleInput0 rfl example_code example_mem0 example_cell0
      example_pre0 example_solve0 (by norm_num [exampleCell0, RHO])
      (by norm_num [exampleFlow])).1⟩

/-! ## A source created by clamping alone -/

theorem clamp_facts_pre :
    preSolve inertServices clampFlow.dim clampFlow.time clampFlow.dt exampleCell2
      exampleSolver = .ok (exampleLocals2, exampleInput2) := by
  norm_num [preSolve, inertServices, clampFlow, exampleCell2, exampleSolver, exampleLocals2,
    exampleInput2, RHO, RHOE, RHOU, softReset, loadPointArray_one, PetscMin, PetscMax]

theorem clamp_facts_propertyCalls :
    ∀ c ∈ cellRange clampFlow, ∀ cf,
      clampFlow.flowArray (cellOf clampFlow.cells c) = some cf →
        PropertyCallsSucceed inertServices clampFlow.dim clampFlow.time clampFlow.dt cf
          exampleSolver := by
  intro c _ cf _
  simp [PropertyCallsSucceed, preSolve, inertServices]

theorem clamp_facts_code :
    (ChemistryFlowPreStage inertServices clampFlow 0 exampleSolver).1 = 0 :=
  stage_code_of_propertyCalls _ _ _ _ _ rfl rfl clamp_facts_propertyCalls

theorem clamp_facts_mem : 0 ∈ cellRange clampFlow := by decide

theorem clamp_facts_cell :
    clampFlow.flowArray (cellOf clampFlow.cells 0) = some exampleCell2 := rfl

/-- C21: clamping alone creates a species source.  When `ChemistryFlowPreStage` runs its cell
loop and returns 0, for a visited real cell with `density > 0` whose solve succeeds and leaves
the point state unchanged, the source of species `sp` is
`(density * clamp(densityYi[sp] / density, 0, 1) - densityYi[sp]) / dt`; when
`densityYi[sp] / density` lies outside `[0, 1]` and `dt != 0` this source is not 0, while the
density source is 0. -/
theorem clamping_alone_creates_species_source {n : Nat} (sv : Services n) (fl : FlowData)
    (stagetime : ℚ) (st : Solver n) (c : Nat) (cf : CellFields) (loc : Locals) (st1 : Solver n)
    (sp : Fin n)
    (htime : fl.time = stagetime) (hret : (ChemistryFlowPreStage sv fl stagetime st).1 = 0)
    (hc : c ∈ cellRange fl) (hcf : fl.flowArray (cellOf fl.cells c) = some cf)
    (hpre : preSolve sv fl.dim fl.time fl.dt cf st = .ok (loc, st1))
    (hsolve : (sv.TSSolve st1.ts st1.thermoPres st1.pointData).1 = 0)
    (hsame : (sv.TSSolve st1.ts st1.thermoPres st1.pointData).2.2 = st1.pointData)
    (hrho : 0 < cf.euler RHO) (hdt : fl.dt ≠ 0)
    (hout : cf.densityYi sp.val / cf.euler RHO < 0 ∨ 1 < cf.densityYi sp.val / cf.euler RHO) :
    (ChemistryFlowPreStage sv fl stagetime st).2.sourceVec (cellOf fl.cells c)
          (RHOU + fl.dim + sp.val)
        = (cf.euler RHO * min (max 0 (cf.densityYi sp.val / cf.euler RHO)) 1
            - cf.densityYi sp.val) / fl.dt
      ∧ (ChemistryFlowPreStage sv fl stagetime st).2.sourceVec (cellOf fl.cells c)
          (RHOU + fl.dim + sp.val) ≠ 0
      ∧ (ChemistryFlowPreStage sv fl stagetime st).2.sourceVec (cellOf fl.cells c) RHO = 0 := by
  have hne : cf.euler RHO ≠ 0 := ne_of_gt hrho
  obtain ⟨_, _, _, _, hpd, _⟩ := preSolve_ok sv fl.dim fl.time fl.dt cf st loc st1 hpre
  have hval : (ChemistryFlowPreStage sv fl stagetime st).2.sourceVec (cellOf fl.cells c)
        (RHOU + fl.dim + sp.val)
      = (cf.euler RHO * min (max 0 (cf.densityYi sp.val / cf.euler RHO)) 1
          - cf.densityYi sp.val) / fl.dt := by
    rw [stage_species_source sv fl stagetime st c cf loc st1 sp htime hret hc hcf hpre hsolve,
      hsame, hpd, loadPointArray_succ,
      clamp_after_of_mem _ (clamp_before_bounds _).1 (clamp_before_bounds _).2,
      PetscMin_eq_min, PetscMax_eq_max]
  refine ⟨hval, ?_,
    (stage_density_momentum_source sv fl stagetime st c cf loc st1 htime hret hc hcf hpre
      hsolve).1⟩
  rw [hval]
  apply div_ne_zero _ hdt
  rcases hout with hneg | hbig
  · have hyi : cf.densityYi sp.val < 0 := by
      by_contra hge
      exact absurd (div_nonneg (not_lt.mp hge) (le_of_lt hrho)) (not_le.mpr hneg)
    rw [max_eq_left (le_of_lt hneg), min_eq_left (by norm_num : (0 : ℚ) ≤ 1)]
    intro h
    linarith
  · have hyi : cf.euler RHO < cf.densityYi sp.val := by
      rw [lt_div_iff₀ hrho] at hbig
      linarith
    rw [max_eq_right (by linarith : (0 : ℚ) ≤ cf.densityYi sp.val / cf.euler RHO),
      min_eq_right (le_of_lt hbig)]
    intro h
    linarith

/-- C21 on the third concrete run: density 1, species density 2, an integrator that leaves the
point state unchanged; the species source is not 0 and the density source is 0. -/
theorem clamping_alone_creates_species_source_witness :
    ((ChemistryFlowPreStage inertServices clampFlow 0 exampleSolver).1 = 0
      ∧ preSolve inertServices clampFlow.dim clampFlow.time clampFlow.dt exampleCell2
          exampleSolver = .ok (exampleLocals2, exampleInput2)
      ∧ (inertServices.TSSolve exampleInput2.ts exampleInput2.thermoPres
          exampleInput2.pointData).1 = 0
      ∧ (inertServices.TSSolve exampleInput2.ts exampleInput2.thermoPres
          exampleInput2.pointData).2.2 = exampleInput2.pointData
      ∧ 0 < exampleCell2.euler RHO ∧ clampFlow.dt ≠ 0
      ∧ 1 < exampleCell2.densityYi 0 / exampleCell2.euler RHO)
    ∧ ((ChemistryFlowPreStage inertServices clampFlow 0 exampleSolver).2.sourceVec 0
          (RHOU + 1 + 0)
        = (exampleCell2.euler RHO
              * min (max 0 (exampleCell2.densityYi 0 / exampleCell2.euler RHO)) 1
            - exampleCell2.densityYi 0) / clampFlow.dt
      ∧ (ChemistryFlowPreStage inertServices clampFlow 0 exampleSolver).2.sourceVec 0
          (RHOU + 1 + 0) ≠ 0
      ∧ (ChemistryFlowPreStage inertServices clampFlow 0 exampleSolver).2.sourceVec 0 RHO = 0) :=
  ⟨⟨clamp_facts_code, clamp_facts_pre, rfl, rfl, by norm_num [exampleCell2, RHO],
      by norm_num [clampFlow], by norm_num [exampleCell2, RHO]⟩,
    clamping_alone_creates_species_source inertServices clampFlow 0 exampleSolver 0 exampleCell2
      exampleLocals2 exampleInput2 0 rfl clamp_facts_code clamp_facts_mem clamp_facts_cell
      clamp_facts_pre rfl rfl (by norm_num [exampleCell2, RHO]) (by norm_num [clampFlow])
      (Or.inr (by norm_num [exampleCell2, RHO]))⟩

end TChemReactions

namespace environment

/-! ## The output directory of the run environment -/

theorem filename_append (p s : List Char) (hs : ∀ ch ∈ s, ch ≠ separator) :
    filename (p ++ s) = filename p ++ s := by
  unfold filename
  rw [List.reverse_append, List.takeWhile_append_of_pos, List.reverse_append, List.reverse_reverse]
  intro ch hch
  simpa using hs ch (List.mem_reverse.mp hch)

theorem directoryPart_append (p s : List Char) (hs : ∀ ch ∈ s, ch ≠ separator) :
    directoryPart (p ++ s) = directoryPart p := by
  unfold directoryPart
  rw [List.reverse_append, List.dropWhile_append_of_pos]
  intro ch hch
  simpa using hs ch (List.mem_reverse.mp hch)

theorem filename_of_hasFilename (p : List Char) (h : hasFilename p = true) :
    filename p ≠ [] := by
  unfold hasFilename at h
  unfold filename
  rw [List.getLast?_eq_head?_reverse] at h
  cases hr : p.reverse with
  | nil => rw [hr] at h; simp at h
  | cons ch rest =>
    rw [hr] at h
    have h' : (ch != separator) = true := by simpa using h
    simp [List.takeWhile_cons, h']

theorem filename_of_not_hasFilename (p : List Char) (h : hasFilename p = false) :
    filename p = [] ∧ directoryPart p = p := by
  unfold hasFilename at h
  unfold filename directoryPart
  rw [List.getLast?_eq_head?_reverse] at h
  cases hr : p.reverse with
  | nil =>
    have : p = [] := List.reverse_eq_nil_iff.mp hr
    subst this
    exact ⟨rfl, rfl⟩
  | cons ch rest =>
    rw [hr] at h
    have h' : (ch != separator) = false := by simpa using h
    have hp : (ch :: rest).reverse = p := by rw [← hr, List.reverse_reverse]
    constructor
    · simp [List.takeWhile_cons, h']
    · rw [List.dropWhile_cons]
      simp only [h']
      exact hp

/-- The constructor throws exactly when this rank creates the directory and the creation
fails. -/
theorem newRunEnvironment_error_iff (host : Host) (parameters : Parameters)
    (inputPath : List Char) :
    (∃ e, newRunEnvironment host parameters inputPath = .error e)
      ↔ ((if host.mpiInitialized then host.mpiRank else 0) = 0
          ∧ createDirectoriesReturns host (taggedDirectory host parameters inputPath) = false) := by
  unfold newRunEnvironment
  simp only []
  by_cases hr : (if host.mpiInitialized then host.mpiRank else 0) = 0
  · rw [if_pos hr]
    cases hcr : createDirectoriesReturns host (taggedDirectory host parameters inputPath) with
    | true => simp
    | false => simp [hr]
  · rw [if_neg hr]
    simp [hr]

/-- The object the constructor returns holds the path of lines 10-37. -/
theorem newRunEnvironment_ok (host : Host) (parameters : Parameters) (inputPath : List Char)
    (env : RunEnvironment × Option (List Char))
    (h : newRunEnvironment host parameters inputPath = .ok env) :
    env.1.outputDirectory = taggedDirectory host parameters inputPath := by
  unfold newRunEnvironment at h
  simp only [] at h
  split_ifs at h <;> (cases h; rfl)

/-- C22, amended: the constructor throws exactly when this rank creates the directory and
`create_directories` fails, as it does for an empty output directory.  Whenever it returns an
object: with `tagDirectory` false the output directory is exactly the `outputDirectory` of the
parameters when they specify one, whatever the title and the input path are, and otherwise
`inputPath.parent_path() / title` for a non-empty input path and `current_path() / title` for an
empty one; with `tagDirectory` true or absent it is that same path with the time tag added by
`+=`.  For a tag without separator: when that path has a non-empty final component, the final
component of the result is that component followed by the tag and the result lies in the same
directory; when that path is empty or ends in a separator, the tag is the whole final component
and the directory the result lies in is that path itself, a new sub-directory of it. -/
theorem output_directory_rule (host : Host) (parameters : Parameters) (inputPath : List Char) :
    ((∃ e, newRunEnvironment host parameters inputPath = .error e)
        ↔ ((if host.mpiInitialized then host.mpiRank else 0) = 0
            ∧ createDirectoriesReturns host (taggedDirectory host parameters inputPath) = false))
      ∧ createDirectoriesReturns host [] = false
      ∧ ∀ env, newRunEnvironment host parameters inputPath = .ok env →
          (parameters.tagDirectory = some false →
              (∀ dir, parameters.outputDirectory = some dir → env.1.outputDirectory = dir)
              ∧ (parameters.outputDirectory = none → inputPath ≠ [] →
                env.1.outputDirectory
                  = pathAppend (host.parent_path inputPath) parameters.title)
              ∧ (parameters.outputDirectory = none → inputPath = [] →
                env.1.outputDirectory = pathAppend host.current_path parameters.title))
            ∧ (parameters.tagDirectory ≠ some false →
              env.1.outputDirectory
                  = untaggedDirectory host parameters inputPath ++ timeTag host
                ∧ ((∀ ch ∈ timeTag host, ch ≠ separator) →
                  (hasFilename (untaggedDirectory host parameters inputPath) = true →
                      filename (untaggedDirectory host parameters inputPath) ≠ []
                        ∧ filename env.1.outputDirectory
                          = filename (untaggedDirectory host parameters inputPath)
                            ++ timeTag host
                        ∧ directoryPart env.1.outputDirectory
                          = directoryPart (untaggedDirectory host parameters inputPath))
                    ∧ (hasFilename (untaggedDirectory host parameters inputPath) = false →
                      filename env.1.outputDirectory = timeTag host
                        ∧ directoryPart env.1.outputDirectory
                          = untaggedDirectory host parameters inputPath))) := by
  refine ⟨newRunEnvironment_error_iff host parameters inputPath, rfl, fun env henv => ?_⟩
  rw [newRunEnvironment_ok host parameters inputPath env henv]
  constructor
  · intro htag
    refine ⟨fun dir hdir => ?_, fun hnone hin => ?_, fun hnone hin => ?_⟩
    · simp [taggedDirectory, untaggedDirectory, htag, hdir]
    · simp [taggedDirectory, untaggedDirectory, htag, hnone, hin]
    · simp [taggedDirectory, untaggedDirectory, htag, hnone, hin]
  · intro htag
    have htrue : parameters.tagDirectory.getD true = true := by
      cases h : parameters.tagDirectory with
      | none => rfl
      | some b =>
        cases b with
        | true => rfl
        | false => exact absurd h htag
    have hres : taggedDirectory host parameters inputPath
        = untaggedDirectory host parameters inputPath ++ timeTag host := by
      simp [taggedDirectory, htrue, pathConcat]
    rw [hres]
    refine ⟨rfl, fun hs => ⟨fun hf => ?_, fun hf => ?_⟩⟩
    · exact ⟨filename_of_hasFilename _ hf, filename_append _ _ hs,
        directoryPart_append _ _ hs⟩
    · obtain ⟨h1, h2⟩ := filename_of_not_hasFilename _ hf
      rw [filename_append _ _ hs, directoryPart_append _ _ hs, h1, h2]
      exact ⟨rfl, rfl⟩

/-- C22, amended, on concrete constructions with title `run` and input path `in/deck.yaml`: an
untagged default directory, an untagged specified directory, and a tagged default directory
whose final component `run` is followed by the tag. -/
theorem output_directory_rule_witness :
    (∃ env, newRunEnvironment exampleHost ⟨"run".toList, none, some false⟩
          "in/deck.yaml".toList = .ok env
        ∧ env.1.outputDirectory
          = pathAppend (exampleHost.parent_path "in/deck.yaml".toList) "run".toList)
      ∧ (∃ env, newRunEnvironment exampleHost ⟨"run".toList, some "out".toList, some false⟩
          "in/deck.yaml".toList = .ok env
        ∧ env.1.outputDirectory = "out".toList)
      ∧ (∃ env, newRunEnvironment exampleHost ⟨"run".toList, none, none⟩
          "in/deck.yaml".toList = .ok env
        ∧ env.1.outputDirectory = "in/run".toList ++ "_2021-06-01T12-00-00".toList
        ∧ filename env.1.outputDirectory = "run".toList ++ "_2021-06-01T12-00-00".toList
        ∧ directoryPart env.1.outputDirectory = "in/".toList) := by
  refine ⟨⟨_, rfl, ?_⟩, ⟨_, rfl, ?_⟩, ⟨_, rfl, ?_, ?_, ?_⟩⟩
  · exact (((output_directory_rule exampleHost ⟨"run".toList, none, some false⟩
      "in/deck.yaml".toList).2.2 _ rfl).1 rfl).2.1 rfl (by decide)
  · exact (((output_directory_rule exampleHost ⟨"run".toList, some "out".toList, some false⟩
      "in/deck.yaml".toList).2.2 _ rfl).1 rfl).1 _ rfl
  · exact (((output_directory_rule exampleHost ⟨"run".toList, none, none⟩
      "in/deck.yaml".toList).2.2 _ rfl).2 (by decide)).1
  · exact (((((output_directory_rule exampleHost ⟨"run".toList, none, none⟩
      "in/deck.yaml".toList).2.2 _ rfl).2 (by decide)).2 (by decide)).1 (by decide)).2.1
  · exact (((((output_directory_rule exampleHost ⟨"run".toList, none, none⟩
      "in/deck.yaml".toList).2.2 _ rfl).2 (by decide)).2 (by decide)).1 (by decide)).2.2

/-- C22 as stated fails at two inputs.  For the specified output directory `out/` with
`tagDirectory` true the result is `out/_2021-06-01T12-00-00`: the final component of `out/` is
empty, and the directory the result lies in is `out/` itself, so the tag names a new
sub-directory.  For the specified output directory with an empty path and `tagDirectory` false
the constructor throws and there is no resulting output directory. -/
theorem tag_can_name_a_new_subdirectory :
    (∃ env, newRunEnvironment exampleHost ⟨"run".toList, some "out/".toList, some true⟩
          "in/deck.yaml".toList = .ok env
        ∧ env.1.outputDirectory = "out/_2021-06-01T12-00-00".toList
        ∧ filename "out/".toList = []
        ∧ filename env.1.outputDirectory = "_2021-06-01T12-00-00".toList
        ∧ directoryPart env.1.outputDirectory = "out/".toList
        ∧ directoryPart env.1.outputDirectory ≠ directoryPart "out".toList)
      ∧ newRunEnvironment exampleHost ⟨"run".toList, some [], some false⟩
          "in/deck.yaml".toList = .error (.filesystem_error []) :=
  ⟨⟨_, rfl, by decide, by decide, by decide, by decide, by decide⟩, rfl⟩

end environment
